import Mathlib

/-!
# UBCOrbit/CDH: packet codec, triad comparison and payload dispatcher

Shallow embedding of

* `concept/COMMs_Sync/Src/main.c`: the bit-level packet parser
  (`check_start_protocol`, `get_address`, `check_flag`, `get_lengthCommand`,
  `save_data`, `save_command`, `parse_packet`);
* `src/release/Comparison Function/A/A_Code/Src/main.c`: the triad compare and
  resynchronisation routines (`compareData`, `processData`, `copyData`,
  `clearArray`, `get_reInit`, `reInit_someone`);
* `concept/payloadSync/payloadSync/Src/main.c`: the dispatcher loop of `main`, which
  forwards the queued commands to the payload and handles the replies.

Conventions.  A `uint8_t` cell is a `Byte = Fin 256`; C `int` arithmetic is done
in `Nat` and truncated with `% 256` where the result is stored in a `uint8_t`.
A C array reached through a pointer is an index map `Nat → Byte`: the language
gives the callee no bound, so a bound is a property to be proved about the
indices the code touches.  For that purpose the machine states carry the list of
indices read and written, in program order.  Distinct pointers are distinct
regions (no aliasing).
-/

namespace CDH

/-- A `uint8_t` memory cell. -/
abbrev Byte := Fin 256

/-- The assignment `a[i] = v` on an array seen as an index map. -/
def store {α : Type} (a : Nat → α) (i : Nat) (v : α) : Nat → α :=
  fun j => if j = i then v else a j

namespace COMMs_Sync

/-- The constant `#define PACKET_SIZE 256`. -/
def PACKET_SIZE : Nat := 256

/-- The constant `#define BYTE_SIZE 8`. -/
def BYTE_SIZE : Nat := 8

/-- The loop shared by the four field extractors,
`for (int i = 7; 0 <= i; i--) holder[7 - i] = ((b >> i) & 0x01);`
run on the local array `uint8_t holder[BYTE_SIZE]`.  The argument is the value of
the byte read; for `i ≤ 7` the expression `(b >> i) & 1` is bit `i` of that byte
whether the temporary is `uint8_t` or a (possibly signed) `char`. -/
def fill_holder (b : Nat) : Nat → Nat :=
  [7, 6, 5, 4, 3, 2, 1, 0].foldl
    (fun holder i => store holder (7 - i) ((b >>> i) &&& 1)) (fun _ => 0)

/-- The memory `parse_packet` works on: the packet `buf`, the three one-byte
outputs `*adr`, `*flg`, `*len_command`, the payload output `data`, and the trace
of the indices of `buf` read and of `data` written. -/
structure Mem where
  /-- Contents reachable from `uint8_t *buf`. -/
  buf : Nat → Byte
  /-- The cell `*adr`. -/
  adr : Byte
  /-- The cell `*flg`. -/
  flg : Byte
  /-- The cell `*len_command`. -/
  len_command : Byte
  /-- Contents reachable from `uint8_t *data`. -/
  data : Nat → Byte
  /-- Indices of `buf` read so far, oldest first. -/
  bufReads : List Nat
  /-- Indices of `data` written so far, oldest first. -/
  dataWrites : List Nat

/-- The read `*(buf + i)`, recorded in the trace. -/
def Mem.readBuf (m : Mem) (i : Nat) : Byte × Mem :=
  (m.buf i, { m with bufReads := m.bufReads ++ [i] })

/-- The write `*(data + i) = v`, recorded in the trace. -/
def Mem.writeData (m : Mem) (i : Nat) (v : Byte) : Mem :=
  { m with data := store m.data i v, dataWrites := m.dataWrites ++ [i] }

/-- Source function `check_start_protocol`: 1 when `holder[0..3]` is `0,1,1,0`. -/
def check_start_protocol (m : Mem) : Byte × Mem :=
  let r := m.readBuf 0
  let holder := fill_holder r.1.val
  if holder 0 = 0 ∧ holder 1 = 1 ∧ holder 2 = 1 ∧ holder 3 = 0 then (1, r.2) else (0, r.2)

/-- Source function `get_address`:
`*adr = holder[4]*4 + holder[5]*2 + holder[6]*1`. -/
def get_address (m : Mem) : Mem :=
  let r := m.readBuf 0
  let holder := fill_holder r.1.val
  { r.2 with adr := Fin.ofNat (holder 4 * 4 + holder 5 * 2 + holder 6 * 1) }

/-- Source function `check_flag`: `*flg = holder[7]`. -/
def check_flag (m : Mem) : Mem :=
  let r := m.readBuf 0
  let holder := fill_holder r.1.val
  { r.2 with flg := Fin.ofNat (holder 7) }

/-- The `int` sum that `get_lengthCommand` forms before storing it in a `uint8_t`. -/
def lengthCommand_sum (holder : Nat → Nat) : Nat :=
  holder 0 * 128 + holder 1 * 64 + holder 2 * 32 + holder 3 * 16 +
    holder 4 * 8 + holder 5 * 4 + holder 6 * 2 + holder 7 * 1

/-- Source function `get_lengthCommand`: reads `*(buf + 1)`, splits it into bits and
stores the weighted sum in `*len_command`. -/
def get_lengthCommand (m : Mem) : Mem :=
  let r := m.readBuf 1
  let holder := fill_holder r.1.val
  { r.2 with len_command := Fin.ofNat (lengthCommand_sum holder) }

/-- One iteration of the loop of `save_data`: `*(data + x) = *(buf + 2 + x);`. -/
def save_data_step (m : Mem) (x : Nat) : Mem :=
  let r := m.readBuf (2 + x)
  r.2.writeData x r.1

/-- Source function `save_data`:
`for (int x = 0; x < *len_command; x++) *(data + x) = *(buf + 2 + x);`.
The body leaves `*len_command` alone, so the bound is the value on entry. -/
def save_data (m : Mem) : Mem :=
  (List.range m.len_command.val).foldl save_data_step m

/-- Source function `save_command`: the body is empty. -/
def save_command (m : Mem) : Mem := m

/-- Source function `parse_packet`.  The last parameter (`packet_legnth` in the
source) is accepted and never used.  The console message of the rejecting branch
goes to the UART and touches none of the modelled memory. -/
def parse_packet (m : Mem) (_packet_legnth : Int) : Byte × Mem :=
  let c := check_start_protocol m
  if c.1 = 0 then (0, c.2)
  else
    let m1 := get_address c.2
    let m2 := check_flag m1
    let m3 := get_lengthCommand m2
    if m3.flg = 0 then (1, save_command m3) else (1, save_data m3)


/-- The header fields an accepting `parse_packet` has written before it turns to
the payload. -/
def Mem.header (m : Mem) : Mem :=
  { m with
    adr := Fin.ofNat (((m.buf 0).val >>> 1) &&& 7)
    flg := Fin.ofNat ((m.buf 0).val &&& 1)
    len_command := m.buf 1
    bufReads := m.bufReads ++ [0, 0, 0, 1] }

/-- Modelled from the spec: the frame encoder.  The sources hold the parser only; the
layout is the wire format of the specification: byte 0 carries the marker `0110` in bits
7-4, the address in bits 3-1 and the flag in bit 0, byte 1 the command id or the payload
length, and the payload follows. -/
def encode (address : Fin 8) (flag : Fin 2) (control_or_length : Byte) (payload : List Byte) :
    List Byte :=
  Fin.ofNat (0x60 ||| (address.val <<< 1) ||| flag.val) :: control_or_length :: payload

/-- A memory whose cells are all zero and whose traces are empty. -/
def Mem.blank : Mem :=
  { buf := fun _ => 0, adr := 0, flg := 0, len_command := 0, data := fun _ => 0,
    bufReads := [], dataWrites := [] }

/-- The memory `m` after a frame has been received at `buf`.  Cells past the end of the
frame get the value 0. -/
def Mem.load (m : Mem) (frame : List Byte) : Mem :=
  { m with buf := fun i => frame.getD i 0 }

/-- A full `PACKET_SIZE` buffer: data frame (flag 1) for address 0 that declares 255
payload bytes, the remaining 254 cells of the buffer being zero. -/
def overlong_packet : Mem :=
  Mem.blank.load (0x61 :: 0xFF :: List.replicate 254 0)

/-- A memory whose outputs hold the results of an earlier parse (address 5, flag 1, length
3, payload `AA BB CC`) and whose `buf` holds a packet of zero bytes, so one that starts with
`0x00`. -/
def stale_outputs : Mem :=
  { buf := fun _ => 0, adr := 5, flg := 1, len_command := 3,
    data := fun i => [0xAA, 0xBB, 0xCC].getD i 0, bufReads := [], dataWrites := [] }

end COMMs_Sync

namespace Comparison

/-- The constant `#define BUFFER_SIZE 64`, the size of `STM_x.data` and of every
`tempBuffer`. -/
def BUFFER_SIZE : Nat := 64

/-- Source function `clearArray`:
`for (int i = 0; i < BUFFER_SIZE; i++) buffer[i] = '\0';`. -/
def clearArray (buffer : Nat → Byte) : Nat → Byte :=
  (List.range BUFFER_SIZE).foldl (fun b i => store b i 0) buffer

/-- The effect of a `HAL_SPI_Receive(h, tempBuffer, numBytes, timeOut)` that returned
`HAL_OK`: the `numBytes` bytes `rx 0, rx 1, …` delivered by the link are in
`tempBuffer[0 .. numBytes)`. -/
def receive (tempBuffer rx : Nat → Byte) (numBytes : Nat) : Nat → Byte :=
  fun i => if i < numBytes then rx i else tempBuffer i

/-- The state of the copy loop of `processData` and `copyData`: the destination array,
the counter `stmCount`, and the indices of `tempBuffer` read and of the destination
written, oldest first. -/
structure Copy where
  /-- The destination, `STM_B.data` in `processData` and `STM_A.data` in `copyData`. -/
  data : Nat → Byte
  /-- The local `int stmCount`. -/
  stmCount : Nat
  /-- Indices of `tempBuffer` read so far. -/
  tempReads : List Nat
  /-- Indices of the destination written so far. -/
  dataWrites : List Nat

/-- The loop body `dest[baseIndex + stmCount] = tempBuffer[stmCount]; stmCount++;`. -/
def copy_body (tempBuffer : Nat → Byte) (baseIndex : Nat) (c : Copy) : Copy :=
  { data := store c.data (baseIndex + c.stmCount) (tempBuffer c.stmCount)
    stmCount := c.stmCount + 1
    tempReads := c.tempReads ++ [c.stmCount]
    dataWrites := c.dataWrites ++ [baseIndex + c.stmCount] }

/-- The loop `while (stmCount <= numBytes + 1) { body }`, unrolled at most `fuel` times. -/
def copy_while (tempBuffer : Nat → Byte) (baseIndex numBytes : Nat) : Nat → Copy → Copy
  | 0, c => c
  | fuel + 1, c =>
    if c.stmCount ≤ numBytes + 1 then
      copy_while tempBuffer baseIndex numBytes fuel (copy_body tempBuffer baseIndex c)
    else c

/-- The statement `dest[baseIndex + stmCount] = '\0';` that follows the loop. -/
def append_null (baseIndex : Nat) (c : Copy) : Copy :=
  { c with
    data := store c.data (baseIndex + c.stmCount) 0
    dataWrites := c.dataWrites ++ [baseIndex + c.stmCount] }

/-- Source function `processData`, on `STM_B.data`.  The loop starts at `stmCount = 0` and
the counter grows by one per round, so `numBytes + 2` rounds exhaust the condition. -/
def processData (STM_B tempBuffer : Nat → Byte) (baseIndex numBytes : Nat) : Copy :=
  append_null baseIndex
    (copy_while tempBuffer baseIndex numBytes (numBytes + 2)
      { data := STM_B, stmCount := 0, tempReads := [], dataWrites := [] })

/-- Source function `copyData`: the same statements as `processData`, on `STM_A.data`. -/
def copyData (STM_A tempBuffer : Nat → Byte) (baseIndex numBytes : Nat) : Copy :=
  append_null baseIndex
    (copy_while tempBuffer baseIndex numBytes (numBytes + 2)
      { data := STM_A, stmCount := 0, tempReads := [], dataWrites := [] })

/-- The call `itoa(n, s, 10)` for `n ≥ 0`: the decimal digits of `n` as ASCII bytes
(the terminating NUL is left implicit). -/
def itoa (n : Nat) : List Byte :=
  (Nat.toDigits 10 n).map (fun c => Fin.ofNat c.toNat)

/-- One round of the comparison loop of `compareData`:
`if (STM_A.data[baseIndex + i] != STM_B.data[baseIndex + i]) comp_result = 0;`. -/
def compare_body (STM_A STM_B : Nat → Byte) (baseIndex : Nat) (comp_result i : Nat) : Nat :=
  if STM_A (baseIndex + i) ≠ STM_B (baseIndex + i) then 0 else comp_result

/-- What a run of `compareData` leaves behind. -/
structure Compared where
  /-- The bytes of `fullString` handed to `HAL_SPI_Transmit(&hspi2, ...)`. -/
  request : List Byte
  /-- The local `tempBuffer` after the receive. -/
  tempBuffer : Nat → Byte
  /-- The outcome of `processData`: the shadow copy `STM_B.data` and its access trace. -/
  shadow : Copy
  /-- The local `int comp_result`. -/
  comp_result : Nat
  /-- The bytes of `result` handed to the second `HAL_SPI_Transmit(&hspi2, ...)`. -/
  result : List Byte

/-- Source function `compareData(baseIndex, numBytes)` for non-negative arguments.
`STM_A` and `STM_B` are the two `data` arrays on entry, `stack` the indeterminate initial
contents of the local `tempBuffer`, and `rx` the bytes delivered by the
`HAL_SPI_Receive` that returns `HAL_OK` and so ends the waiting loop (an attempt that
fails can only have written inside `tempBuffer[0 .. numBytes)`, which the successful one
overwrites).  Console output is left out.  Each array is an index map of its own, so the
definition follows the source exactly as long as every access stays inside the 64-byte
arrays, that is for `baseIndex + numBytes + 2 < BUFFER_SIZE`; for a longer range
`processData` writes past the end of `STM_B.data`, which `shadow.dataWrites` records and
which this definition does not carry over to the objects that lie behind the array. -/
def compareData (STM_A STM_B stack rx : Nat → Byte) (baseIndex numBytes : Nat) : Compared :=
  let fullString := itoa baseIndex ++ itoa numBytes
  let tempBuffer := receive (clearArray stack) rx numBytes
  let shadow := processData STM_B tempBuffer baseIndex numBytes
  let comp_result :=
    (List.range numBytes).foldl (compare_body STM_A shadow.data baseIndex) 1
  { request := fullString
    tempBuffer := tempBuffer
    shadow := shadow
    comp_result := comp_result
    result := (itoa comp_result).take 1 }

/-- The comparison of `compareData` with both arrays placed in one address space `mem`:
`STM_A.data` starts at address `a`, `STM_B.data` at address `b` (the `struct board` is 65
bytes long: `data[64]` and `letter`), and a write through `STM_B.data[i]` lands at address
`b + i` whatever `i` is.  The result is `comp_result`. -/
def compareData_at (mem stack rx : Nat → Byte) (a b baseIndex numBytes : Nat) : Nat :=
  let tempBuffer := receive (clearArray stack) rx numBytes
  let after := (processData mem tempBuffer (b + baseIndex) numBytes).data
  (List.range numBytes).foldl
    (compare_body (fun i => after (a + i)) (fun i => after (b + i)) baseIndex) 1

/-- The call `atoi(s)` on the two-character array `s = {c, '\0'}`: the digit value when
`c` is an ASCII digit, and 0 otherwise (no digits to convert). -/
def atoi (c : Byte) : Nat :=
  if 48 ≤ c.val ∧ c.val ≤ 57 then c.val - 48 else 0

/-- The scan of `strlen(s)`, from index `i`, over at most `fuel` cells. -/
def strlen_from (s : Nat → Byte) : Nat → Nat → Nat
  | 0, i => i
  | fuel + 1, i => if s i = 0 then i else strlen_from s fuel (i + 1)

/-- What a run of `reInit_someone` leaves behind. -/
structure Served where
  /-- The local `int baseIndex`. -/
  baseIndex : Nat
  /-- The local `int numBytes`. -/
  numBytes : Nat
  /-- The local array `reqData`. -/
  reqData : Nat → Byte
  /-- The bytes handed to `HAL_SPI_Transmit(&hspi6, reqData, strlen(reqData), timeOut)`. -/
  sent : List Byte

/-- The statements of `reInit_someone` that follow `clearArray(tempBuffer)`: parse the two
characters `tempBuffer[0]`, `tempBuffer[1]`, clear `reqData`, fill it from `STM_A.data`
and transmit `strlen(reqData)` bytes of it.  `clearArray` zeroes `BUFFER_SIZE` cells and
at most 9 are filled, so the scan of `strlen` ends within `BUFFER_SIZE` cells. -/
def serve_request (tempBuffer STM_A stack : Nat → Byte) : Served :=
  let baseIndex := atoi (tempBuffer 0)
  let numBytes := atoi (tempBuffer 1)
  let reqData := (List.range numBytes).foldl
    (fun r count => store r count (STM_A (baseIndex + count))) (clearArray stack)
  { baseIndex := baseIndex
    numBytes := numBytes
    reqData := reqData
    sent := (List.range (strlen_from reqData BUFFER_SIZE 0)).map reqData }

/-- Source function `reInit_someone`.  It declares `reqBytes = 2` and `tempBuffer`, clears
`tempBuffer`, and goes on to parse it: no receive call stands between the two.  `stack`
is the indeterminate initial contents of the local arrays. -/
def reInit_someone (STM_A stack : Nat → Byte) : Served :=
  serve_request (clearArray stack) STM_A stack

/-- The array `STM_A.data` as `main` initialises it: the characters of `"Hello!\n"` in
cells 0 to 6, zero elsewhere. -/
def hello_data : Nat → Byte :=
  fun i => [0x48, 0x65, 0x6C, 0x6C, 0x6F, 0x21, 0x0A].getD i 0

/-- An array of zero cells. -/
def zero_data : Nat → Byte := fun _ => 0

/-- The two request characters `'0'`, `'3'` (base index 0, three bytes) at the start of
a cleared buffer. -/
def request_03 : Nat → Byte :=
  fun i => [0x30, 0x33].getD i 0

/-- A `data` array whose first three cells are `0x41, 0x00, 0x42`. -/
def data_with_zero : Nat → Byte :=
  fun i => [0x41, 0x00, 0x42].getD i 0

/-- Source function `get_reInit`.  The source names `baseIndex` and `numBytes` without
declaring them, so they are parameters here; `rx` holds the bytes delivered by the
`HAL_SPI_Receive` that ends the waiting loop and `stack` the indeterminate initial contents
of the local `tempBuffer`.  The closing `goto Start` hands control back to `main`. -/
def get_reInit (STM_A stack rx : Nat → Byte) (baseIndex numBytes : Nat) : Copy :=
  copyData STM_A (receive (clearArray stack) rx numBytes) baseIndex numBytes

/-- An array holding the character `'A'` in cells 0 to 62 and zero elsewhere. -/
def data_63_A : Nat → Byte :=
  fun i => if i < 63 then 0x41 else 0

/-- An address space with `STM_B` at addresses 0 to 64, all zero, and `STM_A` right behind
it: `STM_A.data` at addresses 65 to 128, holding `'A'` in its cells 0 to 62. -/
def adjacent_boards : Nat → Byte :=
  fun i => if 65 ≤ i ∧ i < 128 then 0x41 else 0

/-- The one received byte `'J'`. -/
def rx_J : Nat → Byte :=
  fun i => [0x4A].getD i 0

end Comparison

namespace payloadSync

/-- The value of a `uint16_t`. -/
abbrev Half := Fin 65536

/-- The command codes of the `switch` in `main`.  Their numeric values are given in
`payloadsync.h`, so they are kept symbolic: the eight case labels, pairwise distinct as
case labels are, and `other id` for a code equal to none of them (the `switch` has no
`default`). -/
inductive Code where
  | START_DOWNLOAD
  | START_UPLOAD
  | REQUEST_PACKET
  | SEND_PACKET
  | CANCEL_UPLOAD
  | FINALIZE_UPLOAD
  | TAKE_PHOTO
  | EXECUTE_COMMAND
  | other (id : Byte)
  deriving DecidableEq

/-- The fields of a queued message that `main` uses: `command->code`,
`command->payloadLen` (read into a `uint16_t`) and `command->payload`. -/
structure Message where
  /-- The field `code`. -/
  code : Code
  /-- The field `payloadLen`. -/
  payloadLen : Half
  /-- The bytes `payload` points to. -/
  payload : List Byte
  deriving DecidableEq

/-- Modelled from the spec: an entry of the error log, `{command_code, error_byte}`. -/
structure ErrorEntry where
  /-- The code of the command that failed. -/
  command_code : Code
  /-- The reply byte that signalled the failure. -/
  error_byte : Byte
  deriving DecidableEq

/-- The destinations `main` passes to `receiveData`. -/
inductive Dest where
  | reply
  | shasum
  | packetLenArr
  | data
  deriving DecidableEq

/-- The calls `main` makes in its loop, with the arguments that matter.  `peekQueue` and
`dequeue` carry the value of `commandQue->numMessages` at the time of the call. -/
inductive Call where
  | heartbeatListen
  | peekQueue (numMessages : Nat)
  | sendmHeader (command : Message)
  | sendData (payload : List Byte) (datalen : Nat)
  | receiveData (dest : Dest) (size : Nat)
  | handleError (command : Message) (reply : Byte)
  | malloc (size : Nat)
  | saveData (data : List Byte) (size : Nat)
  | free
  | dequeue (numMessages : Nat)
  | HAL_Delay (ms : Nat)
  deriving DecidableEq

/-- What `payloadsync.h` fixes and the sources do not show: which reply bytes
`handleError` takes for an error, the constant `COMMAND_DELAY`, and the integer type of
the global `upload_index`, given by its largest value. -/
structure Config where
  /-- Whether `handleError` reports an error for this reply byte. -/
  isError : Byte → Bool
  /-- The constant `COMMAND_DELAY`. -/
  COMMAND_DELAY : Nat
  /-- The largest value of the C type of `upload_index`. -/
  UPLOAD_INDEX_MAX : Nat

/-- The globals `main` works on, the bytes the payload link delivers, and the calls made so
far (oldest first). -/
structure State where
  /-- The global `commandQue`: the queued messages, head first. -/
  commandQue : List Message
  /-- The global `errors`: the error log, oldest entry first. -/
  errors : List ErrorEntry
  /-- The global array `shasum`. -/
  shasum : Nat → Byte
  /-- The global `upload_index`. -/
  upload_index : Nat
  /-- The global array `packetLenArr`. -/
  packetLenArr : Nat → Byte
  /-- The global `packetLen`. -/
  packetLen : Nat
  /-- The bytes the payload sends, in order of arrival. -/
  incoming : Nat → Byte
  /-- How many of the incoming bytes have been consumed. -/
  consumed : Nat
  /-- The calls made so far. -/
  calls : List Call

/-- Modelled from the spec: the field `commandQue->numMessages`, the number of messages in
the queue (the queue type is declared in `payloadsync.h`). -/
def numMessages (commandQue : List Message) : Nat :=
  commandQue.length

/-- Modelled from the spec: `peekQueue(commandQue)`, which returns the head of the queue
without removing it, and nothing on an empty queue. -/
def peekQueue (commandQue : List Message) : Option Message :=
  commandQue.head?

/-- Modelled from the spec: `dequeue(commandQue)`, which removes the head of the queue. -/
def dequeue (commandQue : List Message) : List Message :=
  commandQue.tail

/-- Append a call to the record. -/
def State.call (s : State) (c : Call) : State :=
  { s with calls := s.calls ++ [c] }

/-- Modelled from the spec: `receiveData(dest, size)`, a transport receive that returns
with the next `size` bytes of the link.  The result is those bytes and the state after. -/
def receiveData (s : State) (dest : Dest) (size : Nat) : List Byte × State :=
  ((List.range size).map (fun i => s.incoming (s.consumed + i)),
    { s with consumed := s.consumed + size, calls := s.calls ++ [Call.receiveData dest size] })

/-- The call `receiveData(&reply, 1)`: the byte stored in `reply`, and the state after. -/
def receiveReply (s : State) : Byte × State :=
  (s.incoming s.consumed, (receiveData s Dest.reply 1).2)

/-- Modelled from the spec: `handleError(errors, command, &reply)`.  When the reply signals
a failure it appends one entry to the error log and reports true; otherwise it reports
false and leaves the log alone. -/
def handleError (cfg : Config) (s : State) (command : Message) (reply : Byte) : Bool × State :=
  let s1 := s.call (Call.handleError command reply)
  if cfg.isError reply then
    (true, { s1 with errors := s1.errors ++ [{ command_code := command.code, error_byte := reply }] })
  else (false, s1)

/-- The bytes `bytes` written to the start of the array `a`. -/
def fill (a : Nat → Byte) (bytes : List Byte) : Nat → Byte :=
  fun i => if i < bytes.length then bytes.getD i 0 else a i

/-- The `case START_DOWNLOAD` of the `switch`. -/
def case_START_DOWNLOAD (cfg : Config) (command : Message) (s : State) : State :=
  let r := receiveReply s
  let h := handleError cfg r.2 command r.1
  if !h.1 then
    let d := receiveData h.2 Dest.shasum 32
    { d.2 with shasum := fill d.2.shasum d.1 }
  else h.2

/-- The `case START_UPLOAD` of the `switch`. -/
def case_START_UPLOAD (cfg : Config) (command : Message) (s : State) : State :=
  let r := receiveReply s
  let h := handleError cfg r.2 command r.1
  if h.1 then h.2
  else { h.2 with upload_index := 0 }

/-- The `case REQUEST_PACKET` of the `switch`:
`packetLen = packetLenArr[1] << 8; packetLen = packetLen & (packetLenArr[0]);`
then `malloc`, `receiveData(data, packetLen)`, `saveData(data, packetLen)`, `free`.  The
shift of a byte is below `2 ^ 16`, so it is not truncated by a `packetLen` of 16 bits or
more. -/
def case_REQUEST_PACKET (cfg : Config) (command : Message) (s : State) : State :=
  let r := receiveReply s
  let h := handleError cfg r.2 command r.1
  if h.1 then h.2
  else
    let a := receiveData h.2 Dest.packetLenArr 2
    let arr := fill a.2.packetLenArr a.1
    let packetLen1 := (arr 1).val <<< 8
    let packetLen2 := packetLen1 &&& (arr 0).val
    let s1 := { a.2 with packetLenArr := arr, packetLen := packetLen2 }
    let s2 := s1.call (Call.malloc packetLen2)
    let d := receiveData s2 Dest.data packetLen2
    let s3 := d.2.call (Call.saveData d.1 packetLen2)
    s3.call Call.free

/-- The `case SEND_PACKET` of the `switch`.  The statement `upload_index += datalen;` stores
the sum in the fixed-width `upload_index`: the sum itself when it does not exceed
`UPLOAD_INDEX_MAX`, and otherwise the sum reduced to the range of the type, as C does for
an unsigned type (for a signed one the language leaves that case undefined). -/
def case_SEND_PACKET (cfg : Config) (command : Message) (datalen : Nat) (s : State) : State :=
  let r := receiveReply s
  let h := handleError cfg r.2 command r.1
  if h.1 then h.2
  else { h.2 with upload_index := (h.2.upload_index + datalen) % (cfg.UPLOAD_INDEX_MAX + 1) }

/-- The cases `CANCEL_UPLOAD`, `TAKE_PHOTO` and `EXECUTE_COMMAND` of the `switch`, which
read alike: `receiveData(&reply, 1); handleError(errors, command, &reply);`. -/
def case_reply_and_log (cfg : Config) (command : Message) (s : State) : State :=
  let r := receiveReply s
  (handleError cfg r.2 command r.1).2

/-- The `case FINALIZE_UPLOAD` of the `switch`: `receiveData(&reply, 1);`. -/
def case_FINALIZE_UPLOAD (s : State) : State :=
  (receiveReply s).2

/-- The statement `switch(comcode)` of `main`.  Every `break` in it leaves the `switch`,
not the loop. -/
def handle_reply (cfg : Config) (command : Message) (comcode : Code) (datalen : Nat)
    (s : State) : State :=
  match comcode with
  | Code.START_DOWNLOAD => case_START_DOWNLOAD cfg command s
  | Code.START_UPLOAD => case_START_UPLOAD cfg command s
  | Code.REQUEST_PACKET => case_REQUEST_PACKET cfg command s
  | Code.SEND_PACKET => case_SEND_PACKET cfg command datalen s
  | Code.CANCEL_UPLOAD => case_reply_and_log cfg command s
  | Code.FINALIZE_UPLOAD => case_FINALIZE_UPLOAD s
  | Code.TAKE_PHOTO => case_reply_and_log cfg command s
  | Code.EXECUTE_COMMAND => case_reply_and_log cfg command s
  | Code.other _ => s

/-- The outcome of one round of `while (TRUE)`: go round again, or `break`. -/
inductive Step where
  | again (s : State)
  | exit (s : State)

/-- The state held by a `Step`. -/
def Step.state : Step → State
  | Step.again s => s
  | Step.exit s => s

/-- Whether the `Step` is a `break`. -/
def Step.isExit : Step → Bool
  | Step.again _ => false
  | Step.exit _ => true

/-- The statements `sendmHeader(command); if (datalen > 0) sendData(command->payload,
datalen);` with `datalen = command->payloadLen`. -/
def send_command (command : Message) (s : State) : State :=
  let datalen := command.payloadLen.val
  let s1 := s.call (Call.sendmHeader command)
  if 0 < datalen then s1.call (Call.sendData command.payload datalen) else s1

/-- The statements of a round from `uint8_t comcode = command->code;` to the final
`HAL_Delay(COMMAND_DELAY);`, `command` being the head `peekQueue` returned. -/
def forward (cfg : Config) (command : Message) (s : State) : State :=
  let comcode := command.code
  let datalen := command.payloadLen.val
  let s2 := send_command command s
  let s3 := handle_reply cfg command comcode datalen s2
  let s4 := { s3 with
    commandQue := dequeue s3.commandQue
    calls := s3.calls ++ [Call.dequeue (numMessages s3.commandQue)] }
  s4.call (Call.HAL_Delay cfg.COMMAND_DELAY)

/-- The body of `while (TRUE)` in `main`:
`if (commandQue->numMessages > 0) command = peekQueue(commandQue); else { HAL_Delay(1000);
break; }` and then the statements of `forward`.  A `peekQueue` that finds no head cannot
happen under `numMessages > 0`; the round then stops. -/
def loop_body (cfg : Config) (s : State) : Step :=
  let s0 := s.call Call.heartbeatListen
  if 0 < numMessages s0.commandQue then
    match peekQueue s0.commandQue with
    | some command =>
      Step.again (forward cfg command (s0.call (Call.peekQueue (numMessages s0.commandQue))))
    | none => Step.exit s0
  else Step.exit (s0.call (Call.HAL_Delay 1000))

/-- The loop `while (TRUE) { body }` of `main`, for at most `fuel` rounds: the state at the
`break`, or `none` when the rounds are used up before the loop exits. -/
def dispatch (cfg : Config) : Nat → State → Option State
  | 0, _ => none
  | fuel + 1, s =>
    match loop_body cfg s with
    | Step.exit s1 => some s1
    | Step.again s1 => dispatch cfg fuel s1

/-- The messages handed to `sendmHeader`, in call order. -/
def headersSent (calls : List Call) : List Message :=
  calls.filterMap (fun c => match c with
    | Call.sendmHeader m => some m
    | _ => none)

/-- The calls a reply handler may make: `receiveData`, `handleError`, `malloc`, `saveData`
and `free`. -/
def Call.inReplyHandling : Call → Bool
  | Call.receiveData _ _ => true
  | Call.handleError _ _ => true
  | Call.malloc _ => true
  | Call.saveData _ _ => true
  | Call.free => true
  | _ => false

/-- Whether a call is a `dequeue`. -/
def Call.isDequeue : Call → Bool
  | Call.dequeue _ => true
  | _ => false

/-- The state after `receiveData(&reply, 1); handleError(errors, command, &reply);`, the
two statements most cases of the `switch` begin with, written out. -/
def replied (cfg : Config) (command : Message) (s : State) : State :=
  { s with
    consumed := s.consumed + 1
    calls := s.calls ++
      [Call.receiveData Dest.reply 1, Call.handleError command (s.incoming s.consumed)]
    errors := if cfg.isError (s.incoming s.consumed) then
        s.errors ++ [{ command_code := command.code, error_byte := s.incoming s.consumed }]
      else s.errors }

/-- The calls of `send_command`: the header, and the payload when there is one. -/
def sendCalls (command : Message) : List Call :=
  Call.sendmHeader command ::
    (if 0 < command.payloadLen.val then
      [Call.sendData command.payload command.payloadLen.val] else [])

/-- A `REQUEST_PACKET` command without payload. -/
def request_packet : Message :=
  { code := Code.REQUEST_PACKET, payloadLen := 0, payload := [] }

/-- A `TAKE_PHOTO` command without payload. -/
def take_photo : Message :=
  { code := Code.TAKE_PHOTO, payloadLen := 0, payload := [] }

/-- A `SEND_PACKET` command with the three payload bytes `AA BB CC`. -/
def send_packet_3 : Message :=
  { code := Code.SEND_PACKET, payloadLen := 3, payload := [0xAA, 0xBB, 0xCC] }

/-- A configuration for the examples: reply byte 0 is success, any other an error, the
delay between commands is 100 ms, and `upload_index` is 32 bits wide. -/
def cfg0 : Config :=
  { isError := fun b => decide (b ≠ 0), COMMAND_DELAY := 100, UPLOAD_INDEX_MAX := 0xFFFFFFFF }

/-- A state with empty queue and log, zeroed globals, and the given incoming bytes (zero
after them). -/
def State.init (queue : List Message) (incoming : List Byte) : State :=
  { commandQue := queue, errors := [], shasum := fun _ => 0, upload_index := 0,
    packetLenArr := fun _ => 0, packetLen := 0, incoming := fun i => incoming.getD i 0,
    consumed := 0, calls := [] }

/-- A state whose `upload_index` holds the largest 32-bit value, with one `SEND_PACKET`
command queued and a reply byte 0 (no error) on the link. -/
def cursor_at_max : State :=
  { State.init [send_packet_3] [0x00] with upload_index := 0xFFFFFFFF }

end payloadSync

/-! ## The packet parser -/

namespace COMMs_Sync

set_option maxRecDepth 100000 in
theorem holder_start (b : Byte) :
    (fill_holder b.val 0 = 0 ∧ fill_holder b.val 1 = 1 ∧ fill_holder b.val 2 = 1 ∧
      fill_holder b.val 3 = 0) ↔ b.val >>> 4 = 6 := by
  revert b; decide

set_option maxRecDepth 100000 in
theorem holder_address (b : Byte) :
    fill_holder b.val 4 * 4 + fill_holder b.val 5 * 2 + fill_holder b.val 6 * 1
      = (b.val >>> 1) &&& 7 := by
  revert b; decide

set_option maxRecDepth 100000 in
theorem holder_flag (b : Byte) : fill_holder b.val 7 = b.val &&& 1 := by
  revert b; decide

set_option maxRecDepth 100000 in
theorem holder_sum (b : Byte) : lengthCommand_sum (fill_holder b.val) = b.val := by
  revert b; decide

set_option maxRecDepth 100000 in
theorem address_le (b : Byte) : (b.val >>> 1) &&& 7 ≤ 7 := by
  revert b; decide

set_option maxRecDepth 100000 in
theorem flag_le (b : Byte) : b.val &&& 1 ≤ 1 := by
  revert b; decide

theorem ofNat_val (b : Byte) : (Fin.ofNat b.val : Byte) = b := by
  apply Fin.ext
  show b.val % 256 = b.val
  exact Nat.mod_eq_of_lt b.isLt

theorem ofNat_small (n : Nat) (h : n < 256) : (Fin.ofNat n : Byte).val = n := by
  show n % 256 = n
  exact Nat.mod_eq_of_lt h

theorem check_start_protocol_eq (m : Mem) :
    check_start_protocol m
      = (if (m.buf 0).val >>> 4 = 6 then 1 else 0, { m with bufReads := m.bufReads ++ [0] }) := by
  unfold check_start_protocol Mem.readBuf
  by_cases h : (m.buf 0).val >>> 4 = 6
  · simp [h, (holder_start (m.buf 0)).mpr h]
  · have h2 := mt (holder_start (m.buf 0)).mp h
    simp only [if_neg h, if_neg h2]

theorem get_address_eq (m : Mem) :
    get_address m
      = { m with adr := Fin.ofNat (((m.buf 0).val >>> 1) &&& 7), bufReads := m.bufReads ++ [0] } := by
  unfold get_address Mem.readBuf
  simp only [holder_address]

theorem check_flag_eq (m : Mem) :
    check_flag m
      = { m with flg := Fin.ofNat ((m.buf 0).val &&& 1), bufReads := m.bufReads ++ [0] } := by
  unfold check_flag Mem.readBuf
  simp only [holder_flag]

theorem get_lengthCommand_eq (m : Mem) :
    get_lengthCommand m
      = { m with len_command := m.buf 1, bufReads := m.bufReads ++ [1] } := by
  unfold get_lengthCommand Mem.readBuf
  simp only [holder_sum, ofNat_val]

theorem flag_zero_iff (b : Byte) :
    ((Fin.ofNat (b.val &&& 1) : Byte) = 0) ↔ b.val &&& 1 = 0 := by
  constructor
  · intro h0
    have := congrArg Fin.val h0
    rwa [ofNat_small _ (lt_of_le_of_lt (flag_le _) (by decide))] at this
  · intro h0; rw [h0]; rfl

theorem parse_packet_eq (m : Mem) (pl : Int) :
    parse_packet m pl
      = if (m.buf 0).val >>> 4 = 6 then
          (1, if (m.buf 0).val &&& 1 = 0 then m.header else save_data m.header)
        else (0, { m with bufReads := m.bufReads ++ [0] }) := by
  unfold parse_packet
  rw [check_start_protocol_eq]
  by_cases h : (m.buf 0).val >>> 4 = 6
  · simp only [if_pos h, get_address_eq, check_flag_eq, get_lengthCommand_eq, save_command,
      flag_zero_iff, Mem.header, List.append_assoc, List.singleton_append, List.cons_append,
      List.nil_append]
    by_cases hf : (m.buf 0).val &&& 1 = 0
    · simp only [if_pos hf]; simp
    · simp only [if_neg hf]; simp
  · simp only [if_neg h]; simp

theorem foldl_save_data_step (l : List Nat) (m : Mem) :
    (l.foldl save_data_step m).buf = m.buf ∧
    (l.foldl save_data_step m).adr = m.adr ∧
    (l.foldl save_data_step m).flg = m.flg ∧
    (l.foldl save_data_step m).len_command = m.len_command ∧
    (l.foldl save_data_step m).bufReads = m.bufReads ++ l.map (fun x => 2 + x) ∧
    (l.foldl save_data_step m).dataWrites = m.dataWrites ++ l ∧
    ∀ j, (l.foldl save_data_step m).data j = if j ∈ l then m.buf (2 + j) else m.data j := by
  induction l generalizing m with
  | nil => simp
  | cons x l ih =>
    obtain ⟨h1, h2, h3, h4, h5, h6, h7⟩ := ih (save_data_step m x)
    simp only [List.foldl_cons]
    refine ⟨h1, h2, h3, h4, ?_, ?_, ?_⟩
    · rw [h5]; simp [save_data_step, Mem.readBuf, Mem.writeData]
    · rw [h6]; simp [save_data_step, Mem.readBuf, Mem.writeData]
    · intro j
      rw [h7 j]
      by_cases hj : j ∈ l
      · simp [hj, save_data_step, Mem.readBuf, Mem.writeData]
      · by_cases hx : j = x
        · subst hx
          simp [hj, save_data_step, Mem.readBuf, Mem.writeData, store]
        · simp [hj, hx, save_data_step, Mem.readBuf, Mem.writeData, store]

theorem save_data_data (m : Mem) (j : Nat) :
    (save_data m).data j = if j < m.len_command.val then m.buf (2 + j) else m.data j := by
  unfold save_data
  rw [(foldl_save_data_step _ m).2.2.2.2.2.2 j]
  simp only [List.mem_range]

theorem save_data_bufReads (m : Mem) :
    (save_data m).bufReads = m.bufReads ++ (List.range m.len_command.val).map (fun x => 2 + x) :=
  (foldl_save_data_step _ m).2.2.2.2.1

theorem save_data_dataWrites (m : Mem) :
    (save_data m).dataWrites = m.dataWrites ++ List.range m.len_command.val :=
  (foldl_save_data_step _ m).2.2.2.2.2.1

theorem save_data_fields (m : Mem) :
    (save_data m).buf = m.buf ∧ (save_data m).adr = m.adr ∧ (save_data m).flg = m.flg ∧
      (save_data m).len_command = m.len_command :=
  ⟨(foldl_save_data_step _ m).1, (foldl_save_data_step _ m).2.1,
    (foldl_save_data_step _ m).2.2.1, (foldl_save_data_step _ m).2.2.2.1⟩

/-- C1. `parse_packet` returns 0 exactly when bits 7-4 of byte 0 differ from `0110` and
returns 1 otherwise; `check_start_protocol` returns 1 exactly when `(buf[0] >> 4) == 0b0110`;
a buffer whose first byte is `0x00` is rejected. -/
theorem c1_reject_iff_bad_start_marker (m : Mem) (packet_legnth : Int) :
    ((parse_packet m packet_legnth).1 = 0 ↔ (m.buf 0).val >>> 4 ≠ 0b0110) ∧
    ((parse_packet m packet_legnth).1 = 1 ↔ (m.buf 0).val >>> 4 = 0b0110) ∧
    ((check_start_protocol m).1 = 1 ↔ (m.buf 0).val >>> 4 = 0b0110) ∧
    (parse_packet { m with buf := store m.buf 0 0x00 } packet_legnth).1 = 0 := by
  rw [parse_packet_eq, check_start_protocol_eq, parse_packet_eq]
  refine ⟨?_, ?_, ?_, ?_⟩
  · by_cases h : (m.buf 0).val >>> 4 = 6 <;> simp [h]
  · by_cases h : (m.buf 0).val >>> 4 = 6 <;> simp [h]
  · by_cases h : (m.buf 0).val >>> 4 = 6 <;> simp [h]
  · simp [store]

/-- C5. For each of the 256 values of header byte 0, `get_address` stores
`(b >> 1) & 0b111` (bits 3-1) in `*adr`, a value in `[0, 7]`. -/
theorem c5_get_address_bits_3_1 (m : Mem) :
    (get_address m).adr.val = ((m.buf 0).val >>> 1) &&& 0b111 ∧ (get_address m).adr.val ≤ 7 := by
  have h := ofNat_small _ (lt_of_le_of_lt (address_le (m.buf 0)) (by decide))
  rw [get_address_eq]
  exact ⟨h, le_of_eq_of_le h (address_le (m.buf 0))⟩

/-- C6. For each of the 256 values of header byte 0, `check_flag` stores `b & 1` (bit 0) in
`*flg`, so the flag is 0 or 1 and nothing else. -/
theorem c6_check_flag_bit_0 (m : Mem) :
    (check_flag m).flg.val = (m.buf 0).val &&& 1 ∧
      ((check_flag m).flg = 0 ∨ (check_flag m).flg = 1) := by
  have h := ofNat_small _ (lt_of_le_of_lt (flag_le (m.buf 0)) (by decide))
  rw [check_flag_eq]
  refine ⟨h, ?_⟩
  have hle := flag_le (m.buf 0)
  rcases Nat.le_one_iff_eq_zero_or_eq_one.mp hle with h0 | h1
  · left; apply Fin.ext; rw [h, h0]; rfl
  · right; apply Fin.ext; rw [h, h1]; rfl

/-- C7. For each of the 256 values of header byte 1, `get_lengthCommand` stores exactly
`buf[1]` in `*len_command`: the weighted sum of the eight bits is the byte itself, below 256,
so the store into a `uint8_t` truncates nothing. -/
theorem c7_get_lengthCommand_is_byte_1 (m : Mem) :
    (get_lengthCommand m).len_command = m.buf 1 ∧
      lengthCommand_sum (fill_holder (m.buf 1).val) = (m.buf 1).val ∧
      lengthCommand_sum (fill_holder (m.buf 1).val) < 256 := by
  rw [get_lengthCommand_eq, holder_sum]
  exact ⟨rfl, rfl, (m.buf 1).isLt⟩

set_option maxRecDepth 100000 in
theorem encode_header (a : Fin 8) (f : Fin 2) :
    (Fin.ofNat (0x60 ||| (a.val <<< 1) ||| f.val) : Byte).val >>> 4 = 6 ∧
    ((Fin.ofNat (0x60 ||| (a.val <<< 1) ||| f.val) : Byte).val >>> 1) &&& 7 = a.val ∧
    (Fin.ofNat (0x60 ||| (a.val <<< 1) ||| f.val) : Byte).val &&& 1 = f.val := by
  revert a f; decide

theorem parse_packet_ret (m : Mem) (pl : Int) (h : (m.buf 0).val >>> 4 = 6) :
    (parse_packet m pl).1 = 1 := by
  rw [parse_packet_eq, if_pos h]

theorem parse_packet_data (m : Mem) (pl : Int) (h : (m.buf 0).val >>> 4 = 6)
    (hf : (m.buf 0).val &&& 1 = 1) :
    (parse_packet m pl).2 = save_data m.header := by
  rw [parse_packet_eq, if_pos h, if_neg (by rw [hf]; decide)]

theorem parse_packet_command (m : Mem) (pl : Int) (h : (m.buf 0).val >>> 4 = 6)
    (hf : (m.buf 0).val &&& 1 = 0) :
    (parse_packet m pl).2 = m.header := by
  rw [parse_packet_eq, if_pos h, if_pos hf]

/-- C4. With a valid start marker and flag bit 1, `parse_packet` leaves
`data[x] = buf[2 + x]` for every `x < buf[1]` and every `data[x]` with `x ≥ buf[1]` as
it was. -/
theorem c4_payload_is_declared_slice (m : Mem) (packet_legnth : Int)
    (hstart : (m.buf 0).val >>> 4 = 0b0110) (hflag : (m.buf 0).val &&& 1 = 1) :
    (∀ x, x < (m.buf 1).val → (parse_packet m packet_legnth).2.data x = m.buf (2 + x)) ∧
    (∀ x, (m.buf 1).val ≤ x → (parse_packet m packet_legnth).2.data x = m.data x) := by
  rw [parse_packet_data m _ hstart hflag]
  constructor
  · intro x hx
    rw [save_data_data, if_pos (by simpa [Mem.header] using hx)]
    rfl
  · intro x hx
    rw [save_data_data, if_neg (by simpa [Mem.header] using hx)]
    rfl

/-- C8. With a valid start marker and flag bit 0, `parse_packet` returns 1 and stores
header byte 1 in `*len_command`; `data` is not written (no write in the trace, contents
unchanged) and the only reads of `buf` are three of byte 0 and one of byte 1, none at an
index `≥ 2`. -/
theorem c8_command_frame_no_payload (m : Mem) (packet_legnth : Int)
    (hstart : (m.buf 0).val >>> 4 = 0b0110) (hflag : (m.buf 0).val &&& 1 = 0) :
    (parse_packet m packet_legnth).1 = 1 ∧
    (parse_packet m packet_legnth).2.len_command = m.buf 1 ∧
    (parse_packet m packet_legnth).2.data = m.data ∧
    (parse_packet m packet_legnth).2.dataWrites = m.dataWrites ∧
    (parse_packet m packet_legnth).2.bufReads = m.bufReads ++ [0, 0, 0, 1] ∧
    (∀ i ∈ (parse_packet m packet_legnth).2.bufReads, i ∈ m.bufReads ∨ i < 2) := by
  rw [parse_packet_command m _ hstart hflag, parse_packet_ret m _ hstart]
  refine ⟨rfl, rfl, rfl, rfl, rfl, ?_⟩
  intro i hi
  simp only [Mem.header, List.mem_append, List.mem_cons, List.mem_singleton,
    List.not_mem_nil, or_false] at hi
  rcases hi with hi | hi | hi | hi | hi
  · exact Or.inl hi
  all_goals right; omega

/-- C3. The bounds check is missing: for a buffer of `packet_legnth` bytes with a valid
start marker, flag 1 and a declared length `buf[1] > packet_legnth - 2`, `parse_packet`
does not fail: it returns 1 and reads `buf` at an index `≥ packet_legnth`. -/
theorem c3_declared_length_overruns_buffer (m : Mem) (packet_legnth : Int)
    (hstart : (m.buf 0).val >>> 4 = 0b0110) (hflag : (m.buf 0).val &&& 1 = 1)
    (hlen : ((m.buf 1).val : Int) > packet_legnth - 2) :
    (parse_packet m packet_legnth).1 = 1 ∧
    ∃ i ∈ (parse_packet m packet_legnth).2.bufReads, packet_legnth ≤ (i : Int) := by
  rw [parse_packet_data m _ hstart hflag, parse_packet_ret m _ hstart, save_data_bufReads]
  refine ⟨rfl, ?_⟩
  show ∃ i ∈ (m.bufReads ++ [0, 0, 0, 1]) ++ (List.range (m.buf 1).val).map (fun x => 2 + x), _
  rcases Nat.eq_zero_or_pos (m.buf 1).val with h0 | hpos
  · refine ⟨1, by simp, ?_⟩
    rw [h0] at hlen
    omega
  · refine ⟨2 + ((m.buf 1).val - 1), ?_, ?_⟩
    · apply List.mem_append_right
      exact List.mem_map.mpr ⟨(m.buf 1).val - 1, List.mem_range.mpr (by omega), rfl⟩
    · omega

theorem overlong_packet_reads_256 :
    256 ∈ (parse_packet overlong_packet PACKET_SIZE).2.bufReads := by
  rw [parse_packet_data overlong_packet _ (by decide) (by decide), save_data_bufReads]
  apply List.mem_append_right
  exact List.mem_map.mpr ⟨254, List.mem_range.mpr (by decide), rfl⟩

/-- C3 at the 256-byte buffer that declares 255 payload bytes: the parse succeeds and
reads `buf[256]`, one past the buffer. -/
theorem c3_overlong_packet_reads_index_256 :
    (overlong_packet.buf 0).val >>> 4 = 0b0110 ∧ (overlong_packet.buf 0).val &&& 1 = 1 ∧
    ((overlong_packet.buf 1).val : Int) > (PACKET_SIZE : Int) - 2 ∧
    256 ∈ (parse_packet overlong_packet PACKET_SIZE).2.bufReads ∧
    (parse_packet overlong_packet PACKET_SIZE).1 = 1 ∧
    ∃ i ∈ (parse_packet overlong_packet PACKET_SIZE).2.bufReads, (PACKET_SIZE : Int) ≤ (i : Int) :=
  ⟨by decide, by decide, by decide, overlong_packet_reads_256,
    c3_declared_length_overruns_buffer overlong_packet PACKET_SIZE (by decide) (by decide)
      (by decide)⟩

theorem fin2_cases (f : Fin 2) : f = 0 ∨ f = 1 := by
  revert f; decide

theorem load_encode_zero (m : Mem) (a : Fin 8) (f : Fin 2) (c : Byte) (p : List Byte) :
    (m.load (encode a f c p)).buf 0 = Fin.ofNat (0x60 ||| (a.val <<< 1) ||| f.val) := rfl

theorem load_encode_one (m : Mem) (a : Fin 8) (f : Fin 2) (c : Byte) (p : List Byte) :
    (m.load (encode a f c p)).buf 1 = c := rfl

theorem load_encode_payload (m : Mem) (a : Fin 8) (f : Fin 2) (c : Byte) (p : List Byte)
    (x : Nat) : (m.load (encode a f c p)).buf (2 + x) = p.getD x 0 := by
  show (encode a f c p).getD (2 + x) 0 = p.getD x 0
  rw [Nat.add_comm]
  rfl

theorem map_range_getD (p : List Byte) (g : Nat → Byte)
    (h : ∀ x, x < p.length → g x = p.getD x 0) : (List.range p.length).map g = p := by
  apply List.ext_getElem
  · simp
  · intro n h1 h2
    simp only [List.getElem_map, List.getElem_range]
    rw [h n h2, List.getD_eq_getElem _ _ h2]

/-- C2. Round trip: for every address in `[0,7]`, flag in `{0,1}`, control/length byte and
payload (of the declared length when the flag is 1, empty when it is 0), `parse_packet` on
the frame `[0x60 | address<<1 | flag, control_or_length, payload...]` returns 1 and yields
the same address, flag, control/length byte and payload bytes, reading only inside the
frame. -/
theorem c2_parse_encode_round_trip (address : Fin 8) (flag : Fin 2) (control_or_length : Byte)
    (payload : List Byte) (m : Mem) (packet_legnth : Int)
    (hdata : flag = 1 → payload.length = control_or_length.val)
    (hcmd : flag = 0 → payload = []) :
    (parse_packet (m.load (encode address flag control_or_length payload)) packet_legnth).1 = 1 ∧
    (parse_packet (m.load (encode address flag control_or_length payload)) packet_legnth).2.adr.val
      = address.val ∧
    (parse_packet (m.load (encode address flag control_or_length payload)) packet_legnth).2.flg.val
      = flag.val ∧
    (parse_packet (m.load (encode address flag control_or_length payload))
      packet_legnth).2.len_command = control_or_length ∧
    (List.range payload.length).map
      (parse_packet (m.load (encode address flag control_or_length payload)) packet_legnth).2.data
      = payload ∧
    (∀ i ∈ (parse_packet (m.load (encode address flag control_or_length payload))
        packet_legnth).2.bufReads,
      i ∈ m.bufReads ∨ i < (encode address flag control_or_length payload).length) := by
  obtain ⟨h4, ha, hf⟩ := encode_header address flag
  have hlt : ∀ n, n < 256 → (Fin.ofNat n : Byte).val = n := ofNat_small
  have hb0 := load_encode_zero m address flag control_or_length payload
  have hs : ((m.load (encode address flag control_or_length payload)).buf 0).val >>> 4 = 6 := by
    rw [hb0]; exact h4
  have hadr : (m.load (encode address flag control_or_length payload)).header.adr.val
      = address.val := by
    show (Fin.ofNat ((((m.load (encode address flag control_or_length payload)).buf 0).val >>> 1)
      &&& 7) : Byte).val = _
    rw [hb0, ha]
    exact hlt _ (by omega)
  have hflg : (m.load (encode address flag control_or_length payload)).header.flg.val
      = flag.val := by
    show (Fin.ofNat (((m.load (encode address flag control_or_length payload)).buf 0).val
      &&& 1) : Byte).val = _
    rw [hb0, hf]
    exact hlt _ (by omega)
  rcases fin2_cases flag with h0 | h1
  · have hp := hcmd h0
    have hfb : ((m.load (encode address flag control_or_length payload)).buf 0).val &&& 1 = 0 := by
      rw [hb0, hf, h0]; rfl
    rw [parse_packet_command _ _ hs hfb, parse_packet_ret _ _ hs]
    refine ⟨rfl, hadr, hflg, rfl, by rw [hp]; rfl, ?_⟩
    intro i hi
    simp only [Mem.header, Mem.load, List.mem_append, List.mem_cons, List.mem_singleton,
      List.not_mem_nil, or_false] at hi
    rcases hi with hi | hi | hi | hi | hi
    · exact Or.inl hi
    all_goals right; simp [encode]; omega
  · have hp := hdata h1
    have hfb : ((m.load (encode address flag control_or_length payload)).buf 0).val &&& 1 = 1 := by
      rw [hb0, hf, h1]; rfl
    rw [parse_packet_data _ _ hs hfb, parse_packet_ret _ _ hs]
    obtain ⟨_, e2, e3, e4⟩ := save_data_fields (m.load (encode address flag control_or_length payload)).header
    refine ⟨rfl, by rw [e2]; exact hadr, by rw [e3]; exact hflg, by rw [e4]; rfl, ?_, ?_⟩
    · apply map_range_getD
      intro x hx
      rw [save_data_data]
      have hx2 : x < (m.load (encode address flag control_or_length payload)).header.len_command.val := by
        show x < control_or_length.val
        omega
      rw [if_pos hx2]
      exact load_encode_payload m address flag control_or_length payload x
    · intro i hi
      rw [save_data_bufReads] at hi
      have hlen : (encode address flag control_or_length payload).length
          = 2 + control_or_length.val := by
        simp [encode]; omega
      rcases List.mem_append.mp hi with hi | hi
      · simp only [Mem.header, Mem.load, List.mem_append, List.mem_cons, List.mem_singleton,
          List.not_mem_nil, or_false] at hi
        rcases hi with hi | hi | hi | hi | hi
        · exact Or.inl hi
        all_goals right; omega
      · obtain ⟨x, hx, rfl⟩ := List.mem_map.mp hi
        have hx2 : x < control_or_length.val := List.mem_range.mp hx
        right; omega

/-- C2 at `encode(5, 1, 3, [AA, BB, CC])`: the frame is `6B 03 AA BB CC` and it parses to
address 5, flag 1, length 3 and payload `AA BB CC`. -/
theorem c2_frame_6B_03_AA_BB_CC :
    encode 5 1 3 [0xAA, 0xBB, 0xCC] = [0x6B, 0x03, 0xAA, 0xBB, 0xCC] ∧
    (parse_packet (Mem.blank.load [0x6B, 0x03, 0xAA, 0xBB, 0xCC]) 5).1 = 1 ∧
    (parse_packet (Mem.blank.load [0x6B, 0x03, 0xAA, 0xBB, 0xCC]) 5).2.adr.val = 5 ∧
    (parse_packet (Mem.blank.load [0x6B, 0x03, 0xAA, 0xBB, 0xCC]) 5).2.flg.val = 1 ∧
    (parse_packet (Mem.blank.load [0x6B, 0x03, 0xAA, 0xBB, 0xCC]) 5).2.len_command = 3 ∧
    (List.range 3).map (parse_packet (Mem.blank.load [0x6B, 0x03, 0xAA, 0xBB, 0xCC]) 5).2.data
      = [0xAA, 0xBB, 0xCC] ∧
    (∀ i ∈ (parse_packet (Mem.blank.load [0x6B, 0x03, 0xAA, 0xBB, 0xCC]) 5).2.bufReads,
      i ∈ Mem.blank.bufReads ∨ i < 5) :=
  ⟨by decide,
    c2_parse_encode_round_trip 5 1 3 [0xAA, 0xBB, 0xCC] Mem.blank 5 (fun _ => by decide)
      (fun h => absurd h (by decide))⟩

/-- C4 at the frame `6B 03 AA BB CC`. -/
theorem c4_frame_6B_payload :
    ((Mem.blank.load [0x6B, 0x03, 0xAA, 0xBB, 0xCC]).buf 0).val >>> 4 = 0b0110 ∧
    ((Mem.blank.load [0x6B, 0x03, 0xAA, 0xBB, 0xCC]).buf 0).val &&& 1 = 1 ∧
    (∀ x, x < 3 → (parse_packet (Mem.blank.load [0x6B, 0x03, 0xAA, 0xBB, 0xCC]) 5).2.data x
      = (Mem.blank.load [0x6B, 0x03, 0xAA, 0xBB, 0xCC]).buf (2 + x)) ∧
    (∀ x, 3 ≤ x → (parse_packet (Mem.blank.load [0x6B, 0x03, 0xAA, 0xBB, 0xCC]) 5).2.data x
      = Mem.blank.data x) :=
  ⟨by decide, by decide,
    c4_payload_is_declared_slice (Mem.blank.load [0x6B, 0x03, 0xAA, 0xBB, 0xCC]) 5 (by decide)
      (by decide)⟩

/-- C8 at the command frame `6A 07` (address 5, flag 0, command id 7). -/
theorem c8_frame_6A_07 :
    ((Mem.blank.load [0x6A, 0x07]).buf 0).val >>> 4 = 0b0110 ∧
    ((Mem.blank.load [0x6A, 0x07]).buf 0).val &&& 1 = 0 ∧
    (parse_packet (Mem.blank.load [0x6A, 0x07]) 2).1 = 1 ∧
    (parse_packet (Mem.blank.load [0x6A, 0x07]) 2).2.len_command = 7 ∧
    (parse_packet (Mem.blank.load [0x6A, 0x07]) 2).2.data = Mem.blank.data ∧
    (parse_packet (Mem.blank.load [0x6A, 0x07]) 2).2.dataWrites = [] ∧
    (parse_packet (Mem.blank.load [0x6A, 0x07]) 2).2.bufReads = [0, 0, 0, 1] ∧
    (∀ i ∈ (parse_packet (Mem.blank.load [0x6A, 0x07]) 2).2.bufReads,
      i ∈ Mem.blank.bufReads ∨ i < 2) :=
  ⟨by decide, by decide,
    c8_command_frame_no_payload (Mem.blank.load [0x6A, 0x07]) 2 (by decide) (by decide)⟩

theorem parse_packet_reject (m : Mem) (pl : Int) (h : (m.buf 0).val >>> 4 ≠ 6) :
    parse_packet m pl = (0, { m with bufReads := m.bufReads ++ [0] }) := by
  rw [parse_packet_eq, if_neg h]

/-- C22. Atomic rejection: for a buffer whose start marker is not `0110`, `parse_packet`
returns 0 and `*adr`, `*flg`, `*len_command` and every byte of `data` are as before the
call; nothing is written to `data` and the only access is the one read of `buf[0]`. -/
theorem c22_rejection_leaves_outputs_unchanged (m : Mem) (packet_legnth : Int)
    (hbad : (m.buf 0).val >>> 4 ≠ 0b0110) :
    (parse_packet m packet_legnth).1 = 0 ∧
    (parse_packet m packet_legnth).2.adr = m.adr ∧
    (parse_packet m packet_legnth).2.flg = m.flg ∧
    (parse_packet m packet_legnth).2.len_command = m.len_command ∧
    (parse_packet m packet_legnth).2.data = m.data ∧
    (parse_packet m packet_legnth).2.dataWrites = m.dataWrites ∧
    (parse_packet m packet_legnth).2.bufReads = m.bufReads ++ [0] := by
  rw [parse_packet_reject m packet_legnth hbad]
  exact ⟨rfl, rfl, rfl, rfl, rfl, rfl, rfl⟩

/-- C22 at a packet that starts with `0x00`, the outputs holding address 5, flag 1, length 3
and payload `AA BB CC` from an earlier parse: all of them are still there. -/
theorem c22_stale_outputs_survive_rejection :
    (stale_outputs.buf 0).val >>> 4 ≠ 0b0110 ∧
    (parse_packet stale_outputs 256).2.adr = 5 ∧
    (parse_packet stale_outputs 256).2.flg = 1 ∧
    (parse_packet stale_outputs 256).2.len_command = 3 ∧
    (List.range 3).map (parse_packet stale_outputs 256).2.data = [0xAA, 0xBB, 0xCC] ∧
    ((parse_packet stale_outputs 256).1 = 0 ∧
    (parse_packet stale_outputs 256).2.adr = stale_outputs.adr ∧
    (parse_packet stale_outputs 256).2.flg = stale_outputs.flg ∧
    (parse_packet stale_outputs 256).2.len_command = stale_outputs.len_command ∧
    (parse_packet stale_outputs 256).2.data = stale_outputs.data ∧
    (parse_packet stale_outputs 256).2.dataWrites = stale_outputs.dataWrites ∧
    (parse_packet stale_outputs 256).2.bufReads = stale_outputs.bufReads ++ [0]) :=
  ⟨by decide, by decide, by decide, by decide, by decide,
    c22_rejection_leaves_outputs_unchanged stale_outputs 256 (by decide)⟩

end COMMs_Sync

/-! ## The triad comparison -/

namespace Comparison

theorem foldl_store_zero (l : List Nat) (buffer : Nat → Byte) (j : Nat) :
    (l.foldl (fun b i => store b i 0) buffer) j = if j ∈ l then 0 else buffer j := by
  induction l generalizing buffer with
  | nil => simp
  | cons x l ih =>
    simp only [List.foldl_cons, ih, List.mem_cons]
    by_cases hj : j ∈ l
    · simp [hj]
    · by_cases hx : j = x <;> simp [hj, hx, store]

theorem clearArray_apply (buffer : Nat → Byte) (j : Nat) :
    clearArray buffer j = if j < BUFFER_SIZE then 0 else buffer j := by
  unfold clearArray
  rw [foldl_store_zero]
  simp only [List.mem_range]

theorem copy_while_spec (tempBuffer : Nat → Byte) (baseIndex numBytes : Nat) (fuel : Nat) :
    ∀ c : Copy, numBytes + 2 ≤ c.stmCount + fuel →
      (copy_while tempBuffer baseIndex numBytes fuel c).stmCount = max c.stmCount (numBytes + 2) ∧
      (∀ j, (copy_while tempBuffer baseIndex numBytes fuel c).data j
        = if baseIndex + c.stmCount ≤ j ∧ j < baseIndex + (numBytes + 2)
          then tempBuffer (j - baseIndex) else c.data j) ∧
      (copy_while tempBuffer baseIndex numBytes fuel c).tempReads
        = c.tempReads ++ List.range' c.stmCount (numBytes + 2 - c.stmCount) ∧
      (copy_while tempBuffer baseIndex numBytes fuel c).dataWrites
        = c.dataWrites ++
          (List.range' c.stmCount (numBytes + 2 - c.stmCount)).map (fun k => baseIndex + k) := by
  induction fuel with
  | zero =>
    intro c hc
    have h0 : numBytes + 2 - c.stmCount = 0 := by omega
    refine ⟨?_, ?_, ?_, ?_⟩
    · simp only [copy_while]; omega
    · intro j
      simp only [copy_while]
      rw [if_neg (by omega)]
    · simp [copy_while, h0]
    · simp [copy_while, h0]
  | succ fuel ih =>
    intro c hc
    by_cases hle : c.stmCount ≤ numBytes + 1
    · have hstep : copy_while tempBuffer baseIndex numBytes (fuel + 1) c
          = copy_while tempBuffer baseIndex numBytes fuel (copy_body tempBuffer baseIndex c) := by
        simp only [copy_while, if_pos hle]
      have hcnt : (copy_body tempBuffer baseIndex c).stmCount = c.stmCount + 1 := rfl
      obtain ⟨i1, i2, i3, i4⟩ := ih (copy_body tempBuffer baseIndex c) (by rw [hcnt]; omega)
      have hsub : numBytes + 2 - c.stmCount = (numBytes + 2 - (c.stmCount + 1)) + 1 := by omega
      rw [hstep]
      refine ⟨?_, ?_, ?_, ?_⟩
      · rw [i1, hcnt]; omega
      · intro j
        rw [i2 j, hcnt]
        by_cases hj : baseIndex + (c.stmCount + 1) ≤ j ∧ j < baseIndex + (numBytes + 2)
        · rw [if_pos hj, if_pos (by omega)]
        · rw [if_neg hj]
          by_cases hj2 : j = baseIndex + c.stmCount
          · rw [if_pos (by omega), hj2]
            simp [copy_body, store]
          · rw [if_neg (by omega)]
            simp [copy_body, store, hj2]
      · rw [i3, hcnt, hsub, List.range'_succ]
        simp [copy_body]
      · rw [i4, hcnt, hsub, List.range'_succ]
        simp [copy_body]
    · have hstop : copy_while tempBuffer baseIndex numBytes (fuel + 1) c = c := by
        simp only [copy_while, if_neg hle]
      have h0 : numBytes + 2 - c.stmCount = 0 := by omega
      rw [hstop]
      refine ⟨by omega, ?_, by simp [h0], by simp [h0]⟩
      intro j
      rw [if_neg (by omega)]

theorem processData_stmCount (STM_B tempBuffer : Nat → Byte) (baseIndex numBytes : Nat) :
    (processData STM_B tempBuffer baseIndex numBytes).stmCount = numBytes + 2 := by
  have h := (copy_while_spec tempBuffer baseIndex numBytes (numBytes + 2)
    { data := STM_B, stmCount := 0, tempReads := [], dataWrites := [] } (by simp)).1
  simp only [processData, append_null]
  rw [h]
  simp

theorem processData_data (STM_B tempBuffer : Nat → Byte) (baseIndex numBytes j : Nat) :
    (processData STM_B tempBuffer baseIndex numBytes).data j
      = if j = baseIndex + (numBytes + 2) then 0
        else if baseIndex ≤ j ∧ j < baseIndex + (numBytes + 2) then tempBuffer (j - baseIndex)
        else STM_B j := by
  obtain ⟨h1, h2, -, -⟩ := copy_while_spec tempBuffer baseIndex numBytes (numBytes + 2)
    { data := STM_B, stmCount := 0, tempReads := [], dataWrites := [] } (by simp)
  simp only [processData, append_null, store]
  rw [h1, h2 j]
  simp

theorem foldl_compare_body (STM_A STM_B : Nat → Byte) (baseIndex : Nat) (l : List Nat)
    (r : Nat) :
    l.foldl (compare_body STM_A STM_B baseIndex) r
      = if ∀ i ∈ l, STM_A (baseIndex + i) = STM_B (baseIndex + i) then r else 0 := by
  induction l generalizing r with
  | nil => simp
  | cons x l ih =>
    simp only [List.foldl_cons, ih, List.mem_cons, forall_eq_or_imp]
    by_cases hx : STM_A (baseIndex + x) = STM_B (baseIndex + x)
    · simp [compare_body, hx]
    · simp [compare_body, hx]

theorem compareData_shadow (STM_A STM_B stack rx : Nat → Byte) (baseIndex numBytes i : Nat)
    (hi : i < numBytes) :
    (compareData STM_A STM_B stack rx baseIndex numBytes).shadow.data (baseIndex + i) = rx i := by
  show (processData STM_B (receive (clearArray stack) rx numBytes) baseIndex numBytes).data
    (baseIndex + i) = rx i
  rw [processData_data, if_neg (by omega), if_pos (by omega)]
  simp [receive, hi]

theorem compareData_comp_result (STM_A STM_B stack rx : Nat → Byte) (baseIndex numBytes : Nat) :
    (compareData STM_A STM_B stack rx baseIndex numBytes).comp_result
      = if ∀ i, i < numBytes → STM_A (baseIndex + i) = rx i then 1 else 0 := by
  show (List.range numBytes).foldl (compare_body STM_A
    (compareData STM_A STM_B stack rx baseIndex numBytes).shadow.data baseIndex) 1 = _
  rw [foldl_compare_body]
  have : (∀ i ∈ List.range numBytes, STM_A (baseIndex + i)
      = (compareData STM_A STM_B stack rx baseIndex numBytes).shadow.data (baseIndex + i))
      ↔ ∀ i, i < numBytes → STM_A (baseIndex + i) = rx i := by
    constructor
    · intro h i hi
      rw [← compareData_shadow STM_A STM_B stack rx baseIndex numBytes i hi]
      exact h i (List.mem_range.mpr hi)
    · intro h i hi
      rw [compareData_shadow STM_A STM_B stack rx baseIndex numBytes i (List.mem_range.mp hi)]
      exact h i (List.mem_range.mp hi)
  simp only [this]

theorem range_copy_in_bounds (baseIndex numBytes : Nat) :
    ((∀ i ∈ List.range' 0 (numBytes + 2), i < BUFFER_SIZE) ∧
      (∀ j ∈ (List.range' 0 (numBytes + 2)).map (fun k => baseIndex + k) ++
        [baseIndex + (numBytes + 2)], j < BUFFER_SIZE))
      ↔ baseIndex + numBytes + 2 < BUFFER_SIZE := by
  constructor
  · rintro ⟨-, hw⟩
    have := hw (baseIndex + (numBytes + 2)) (by simp)
    omega
  · intro h
    constructor
    · intro i hi
      rw [List.mem_range'_1] at hi
      omega
    · intro j hj
      rcases List.mem_append.mp hj with hj | hj
      · obtain ⟨k, hk, rfl⟩ := List.mem_map.mp hj
        rw [List.mem_range'_1] at hk
        omega
      · rw [List.mem_singleton] at hj
        omega

theorem range_copy_highest_write (baseIndex numBytes : Nat) :
    baseIndex + numBytes + 2 ∈ (List.range' 0 (numBytes + 2)).map (fun k => baseIndex + k) ++
        [baseIndex + (numBytes + 2)] ∧
    ∀ j ∈ (List.range' 0 (numBytes + 2)).map (fun k => baseIndex + k) ++
        [baseIndex + (numBytes + 2)], j ≤ baseIndex + numBytes + 2 := by
  constructor
  · exact List.mem_append_right _ (List.mem_singleton.mpr (by omega))
  · intro j hj
    rcases List.mem_append.mp hj with hj | hj
    · obtain ⟨k, hk, rfl⟩ := List.mem_map.mp hj
      rw [List.mem_range'_1] at hk
      omega
    · rw [List.mem_singleton] at hj
      omega

theorem compareData_at_eq (mem stack rx : Nat → Byte) (a b baseIndex numBytes : Nat)
    (hapart : a + BUFFER_SIZE ≤ b ∨ b + BUFFER_SIZE + 1 ≤ a)
    (hin : baseIndex + numBytes + 2 < BUFFER_SIZE) :
    compareData_at mem stack rx a b baseIndex numBytes
      = (compareData (fun i => mem (a + i)) (fun i => mem (b + i)) stack rx baseIndex
          numBytes).comp_result := by
  have hB : BUFFER_SIZE = 64 := rfl
  rw [compareData_comp_result]
  unfold compareData_at
  rw [foldl_compare_body]
  have hiff : (∀ i ∈ List.range numBytes,
      (processData mem (receive (clearArray stack) rx numBytes) (b + baseIndex) numBytes).data
          (a + (baseIndex + i))
        = (processData mem (receive (clearArray stack) rx numBytes) (b + baseIndex)
            numBytes).data (b + (baseIndex + i)))
      ↔ ∀ i, i < numBytes → mem (a + (baseIndex + i)) = rx i := by
    have hA : ∀ i, i < numBytes →
        (processData mem (receive (clearArray stack) rx numBytes) (b + baseIndex) numBytes).data
          (a + (baseIndex + i)) = mem (a + (baseIndex + i)) := by
      intro i hi
      rw [processData_data, if_neg (by omega), if_neg (by omega)]
    have hS : ∀ i, i < numBytes →
        (processData mem (receive (clearArray stack) rx numBytes) (b + baseIndex) numBytes).data
          (b + (baseIndex + i)) = rx i := by
      intro i hi
      rw [processData_data, if_neg (by omega), if_pos (by omega)]
      have : b + (baseIndex + i) - (b + baseIndex) = i := by omega
      rw [this]
      simp [receive, hi]
    constructor
    · intro h i hi
      rw [← hA i hi, ← hS i hi]
      exact h i (List.mem_range.mpr hi)
    · intro h i hi
      rw [hA i (List.mem_range.mp hi), hS i (List.mem_range.mp hi)]
      exact h i (List.mem_range.mp hi)
  simp only [hiff]

theorem compareData_at_adjacent_boards :
    (∀ i, i < 63 → adjacent_boards (65 + i) = data_63_A i) ∧
    (compareData (fun i => adjacent_boards (65 + i)) (fun i => adjacent_boards (0 + i))
      zero_data data_63_A 0 63).comp_result = 1 ∧
    compareData_at adjacent_boards zero_data data_63_A 65 0 0 63 = 0 := by
  decide

theorem strlen_from_zero (s : Nat → Byte) (fuel i : Nat) (h : s i = 0) :
    strlen_from s (fuel + 1) i = i := by
  simp [strlen_from, h]

/-- C10. `reInit_someone` never receives the request: whatever `STM_A.data` and the
stack hold, it parses the cleared `tempBuffer` to `baseIndex = 0`, `numBytes = 0` and
transmits no byte; on `"Hello!\n"` the slice a request `"07"` asks for has 7 bytes.  And
the statements after the clear, run on a buffer that does hold the request `"03"`, send
`strlen(reqData)` bytes: with `41 00 42` in `STM_A.data` one byte goes out, not three. -/
theorem c10_reInit_someone_transmits_nothing :
    (∀ STM_A stack : Nat → Byte,
      (reInit_someone STM_A stack).baseIndex = 0 ∧
      (reInit_someone STM_A stack).numBytes = 0 ∧
      (reInit_someone STM_A stack).sent = []) ∧
    (List.range 7).map hello_data = [0x48, 0x65, 0x6C, 0x6C, 0x6F, 0x21, 0x0A] ∧
    (serve_request request_03 data_with_zero zero_data).baseIndex = 0 ∧
    (serve_request request_03 data_with_zero zero_data).numBytes = 3 ∧
    (serve_request request_03 data_with_zero zero_data).sent = [0x41] := by
  refine ⟨?_, by decide, by decide, by decide, by decide⟩
  intro STM_A stack
  have h0 : clearArray stack 0 = 0 := by rw [clearArray_apply]; rfl
  have h1 : clearArray stack 1 = 0 := by rw [clearArray_apply]; rfl
  have ha : atoi (0 : Byte) = 0 := by decide
  have hl : strlen_from (clearArray stack) BUFFER_SIZE 0 = 0 :=
    strlen_from_zero (clearArray stack) 63 0 h0
  simp only [reInit_someone, serve_request, h0, h1, ha, List.range_zero, List.foldl_nil, hl,
    List.map_nil, and_self]

theorem copyData_data (STM_A tempBuffer : Nat → Byte) (baseIndex numBytes j : Nat) :
    (copyData STM_A tempBuffer baseIndex numBytes).data j
      = if j = baseIndex + (numBytes + 2) then 0
        else if baseIndex ≤ j ∧ j < baseIndex + (numBytes + 2) then tempBuffer (j - baseIndex)
        else STM_A j :=
  processData_data STM_A tempBuffer baseIndex numBytes j

theorem copyData_range (STM_A tempBuffer : Nat → Byte) (baseIndex numBytes i : Nat)
    (hi : i < numBytes + 2) :
    (copyData STM_A tempBuffer baseIndex numBytes).data (baseIndex + i) = tempBuffer i := by
  rw [copyData_data, if_neg (by omega), if_pos (by omega)]
  congr 1
  omega

theorem receive_cleared (stack rx : Nat → Byte) (numBytes i : Nat) :
    receive (clearArray stack) rx numBytes i
      = if i < numBytes then rx i else if i < BUFFER_SIZE then 0 else stack i := by
  simp only [receive, clearArray_apply]

/-- C11. Resync round trip: for a range `[k, k + n)` inside the buffer, if the temporary
buffer holds the survivor's slice (`tempBuffer[i] = survivor[k + i]` for `i < n`), then
after `copyData(tempBuffer, k, n)` the requester's buffer has `data[k + i] = survivor[k + i]`
for every `i < n`; the same after `get_reInit`, when the bytes received are that slice. -/
theorem c11_resync_round_trip (STM_A survivor tempBuffer stack rx : Nat → Byte) (k n : Nat)
    (_hfit : k + n ≤ BUFFER_SIZE)
    (htemp : ∀ i, i < n → tempBuffer i = survivor (k + i))
    (hrx : ∀ i, i < n → rx i = survivor (k + i)) :
    (∀ i, i < n → (copyData STM_A tempBuffer k n).data (k + i) = survivor (k + i)) ∧
    (∀ i, i < n → (get_reInit STM_A stack rx k n).data (k + i) = survivor (k + i)) := by
  constructor
  · intro i hi
    rw [copyData_range _ _ _ _ _ (by omega), htemp i hi]
  · intro i hi
    unfold get_reInit
    rw [copyData_range _ _ _ _ _ (by omega), receive_cleared, if_pos hi, hrx i hi]

/-- C11 at the range `[0, 7)` of `"Hello!\n"`, copied into a zero buffer. -/
theorem c11_resync_hello :
    0 + 7 ≤ BUFFER_SIZE ∧
    (∀ i, i < 7 → hello_data i = hello_data (0 + i)) ∧
    (List.range 7).map (get_reInit zero_data zero_data hello_data 0 7).data
      = [0x48, 0x65, 0x6C, 0x6C, 0x6F, 0x21, 0x0A] ∧
    ((∀ i, i < 7 → (copyData zero_data hello_data 0 7).data (0 + i) = hello_data (0 + i)) ∧
    (∀ i, i < 7 → (get_reInit zero_data zero_data hello_data 0 7).data (0 + i)
      = hello_data (0 + i))) :=
  ⟨by decide, fun i _ => by rw [Nat.zero_add], by decide,
    c11_resync_round_trip zero_data hello_data hello_data zero_data hello_data 0 7 (by decide)
      (fun i _ => by rw [Nat.zero_add]) (fun i _ => by rw [Nat.zero_add])⟩

theorem itoa_digit (d : Fin 10) : itoa d.val = [Fin.ofNat (48 + d.val)] := by
  revert d; decide

theorem atoi_digit (d : Fin 10) : atoi (Fin.ofNat (48 + d.val)) = d.val := by
  revert d; decide

theorem digit_ne_zero (d : Fin 10) : (Fin.ofNat (48 + d.val) : Byte) ≠ 0 := by
  revert d; decide

/-- C19. For `base_index` and `num_bytes` in `[0, 9]` the request built by `compareData` is
the two characters `'0' + base_index`, `'0' + num_bytes` and nothing else: two bytes, neither
of them NUL, so `strlen` hands both to the transmit; `atoi` on each character gives back
`base_index` and `num_bytes`, also through the parsing statements of `reInit_someone` run
on a buffer that starts with the request.  `compareData(0, 7)` sends `"07"`. -/
theorem c19_range_request_two_digits (base_index num_bytes : Fin 10)
    (STM_A STM_B stack rx : Nat → Byte) :
    (compareData STM_A STM_B stack rx base_index.val num_bytes.val).request
      = [Fin.ofNat (48 + base_index.val), Fin.ofNat (48 + num_bytes.val)] ∧
    (compareData STM_A STM_B stack rx base_index.val num_bytes.val).request.length = 2 ∧
    (∀ c ∈ (compareData STM_A STM_B stack rx base_index.val num_bytes.val).request, c ≠ 0) ∧
    atoi (Fin.ofNat (48 + base_index.val)) = base_index.val ∧
    atoi (Fin.ofNat (48 + num_bytes.val)) = num_bytes.val ∧
    (serve_request
      (fun i => (compareData STM_A STM_B stack rx base_index.val num_bytes.val).request.getD i 0)
      STM_A stack).baseIndex = base_index.val ∧
    (serve_request
      (fun i => (compareData STM_A STM_B stack rx base_index.val num_bytes.val).request.getD i 0)
      STM_A stack).numBytes = num_bytes.val ∧
    (compareData hello_data zero_data zero_data hello_data 0 7).request = [0x30, 0x37] := by
  have hreq : (compareData STM_A STM_B stack rx base_index.val num_bytes.val).request
      = [Fin.ofNat (48 + base_index.val), Fin.ofNat (48 + num_bytes.val)] := by
    show itoa base_index.val ++ itoa num_bytes.val = _
    rw [itoa_digit, itoa_digit]
    rfl
  rw [hreq]
  refine ⟨rfl, rfl, ?_, atoi_digit _, atoi_digit _, atoi_digit _, atoi_digit _, by decide⟩
  intro c hc
  simp only [List.mem_cons, List.mem_singleton, List.not_mem_nil, or_false] at hc
  rcases hc with rfl | rfl
  · exact digit_ne_zero _
  · exact digit_ne_zero _

theorem get_reInit_data (STM_A stack rx : Nat → Byte) (baseIndex numBytes j : Nat) :
    (get_reInit STM_A stack rx baseIndex numBytes).data j
      = if j = baseIndex + (numBytes + 2) then 0
        else if baseIndex ≤ j ∧ j < baseIndex + (numBytes + 2) then
          receive (clearArray stack) rx numBytes (j - baseIndex)
        else STM_A j :=
  copyData_data STM_A _ baseIndex numBytes j

/-- C20. The copy loop runs two rounds too many: with `numBytes + 1 < BUFFER_SIZE`, after
the resync copy the buffer holds the received bytes at `[baseIndex, baseIndex + numBytes)`
and a zero at `baseIndex + numBytes`, but the bytes at `baseIndex + numBytes + 1` and
`baseIndex + numBytes + 2` are set to zero as well; only the bytes below `baseIndex` and
above `baseIndex + numBytes + 2` are as before. -/
theorem c20_copy_zeroes_two_bytes_past_marker (STM_A stack rx : Nat → Byte)
    (baseIndex numBytes : Nat) (hn : numBytes + 1 < BUFFER_SIZE) :
    (∀ i, i < numBytes →
      (get_reInit STM_A stack rx baseIndex numBytes).data (baseIndex + i) = rx i) ∧
    (get_reInit STM_A stack rx baseIndex numBytes).data (baseIndex + numBytes) = 0 ∧
    (get_reInit STM_A stack rx baseIndex numBytes).data (baseIndex + numBytes + 1) = 0 ∧
    (get_reInit STM_A stack rx baseIndex numBytes).data (baseIndex + numBytes + 2) = 0 ∧
    (∀ j, j < baseIndex ∨ baseIndex + numBytes + 2 < j →
      (get_reInit STM_A stack rx baseIndex numBytes).data j = STM_A j) := by
  have hB : BUFFER_SIZE = 64 := rfl
  refine ⟨?_, ?_, ?_, ?_, ?_⟩
  · intro i hi
    rw [get_reInit_data, if_neg (by omega), if_pos (by omega), receive_cleared, if_pos (by omega)]
    congr 1
    omega
  · rw [get_reInit_data, if_neg (by omega), if_pos (by omega), receive_cleared,
      if_neg (by omega), if_pos (by omega)]
  · rw [get_reInit_data, if_neg (by omega), if_pos (by omega), receive_cleared,
      if_neg (by omega), if_pos (by omega)]
  · rw [get_reInit_data, if_pos (by omega)]
  · intro j hj
    rw [get_reInit_data, if_neg (by omega), if_neg (by omega)]

/-- C20 on `"Hello!\n"` with one byte `'J'` received for index 0: cells 2 and 3, which
held `'l'` and lie outside `[0, 1]`, end up zero. -/
theorem c20_hello_cells_2_and_3_zeroed :
    1 + 1 < BUFFER_SIZE ∧
    (List.range 7).map hello_data = [0x48, 0x65, 0x6C, 0x6C, 0x6F, 0x21, 0x0A] ∧
    (List.range 7).map (get_reInit hello_data zero_data rx_J 0 1).data
      = [0x4A, 0x00, 0x00, 0x00, 0x6F, 0x21, 0x0A] ∧
    ((∀ i, i < 1 → (get_reInit hello_data zero_data rx_J 0 1).data (0 + i) = rx_J i) ∧
    (get_reInit hello_data zero_data rx_J 0 1).data (0 + 1) = 0 ∧
    (get_reInit hello_data zero_data rx_J 0 1).data (0 + 1 + 1) = 0 ∧
    (get_reInit hello_data zero_data rx_J 0 1).data (0 + 1 + 2) = 0 ∧
    (∀ j, j < 0 ∨ 0 + 1 + 2 < j →
      (get_reInit hello_data zero_data rx_J 0 1).data j = hello_data j)) :=
  ⟨by decide, by decide, by decide,
    c20_copy_zeroes_two_bytes_past_marker hello_data zero_data rx_J 0 1 (by decide)⟩

theorem processData_tempReads (STM_B tempBuffer : Nat → Byte) (baseIndex numBytes : Nat) :
    (processData STM_B tempBuffer baseIndex numBytes).tempReads
      = List.range' 0 (numBytes + 2) := by
  obtain ⟨-, -, h3, -⟩ := copy_while_spec tempBuffer baseIndex numBytes (numBytes + 2)
    { data := STM_B, stmCount := 0, tempReads := [], dataWrites := [] } (by simp)
  simp only [processData, append_null]
  rw [h3]
  simp

theorem processData_dataWrites (STM_B tempBuffer : Nat → Byte) (baseIndex numBytes : Nat) :
    (processData STM_B tempBuffer baseIndex numBytes).dataWrites
      = (List.range' 0 (numBytes + 2)).map (fun k => baseIndex + k) ++
        [baseIndex + (numBytes + 2)] := by
  obtain ⟨h1, -, -, h4⟩ := copy_while_spec tempBuffer baseIndex numBytes (numBytes + 2)
    { data := STM_B, stmCount := 0, tempReads := [], dataWrites := [] } (by simp)
  simp only [processData, append_null]
  rw [h4, h1]
  simp

/-- C21. Bounds of the range copy: the reads `processData` makes of the temporary buffer and
the writes it makes to the board buffer are all below `BUFFER_SIZE = 64` exactly when
`baseIndex + numBytes + 2 < 64`, and likewise for `copyData`; the index
`baseIndex + numBytes + 2` is written and no higher one is, and the temporary buffer is read
at the indices `0, …, numBytes + 1`. -/
theorem c21_range_copy_bounds (board tempBuffer : Nat → Byte) (baseIndex numBytes : Nat) :
    (((∀ i ∈ (processData board tempBuffer baseIndex numBytes).tempReads, i < BUFFER_SIZE) ∧
      (∀ j ∈ (processData board tempBuffer baseIndex numBytes).dataWrites, j < BUFFER_SIZE))
      ↔ baseIndex + numBytes + 2 < 64) ∧
    (((∀ i ∈ (copyData board tempBuffer baseIndex numBytes).tempReads, i < BUFFER_SIZE) ∧
      (∀ j ∈ (copyData board tempBuffer baseIndex numBytes).dataWrites, j < BUFFER_SIZE))
      ↔ baseIndex + numBytes + 2 < 64) ∧
    (baseIndex + numBytes + 2 ∈ (processData board tempBuffer baseIndex numBytes).dataWrites ∧
      ∀ j ∈ (processData board tempBuffer baseIndex numBytes).dataWrites,
        j ≤ baseIndex + numBytes + 2) ∧
    (baseIndex + numBytes + 2 ∈ (copyData board tempBuffer baseIndex numBytes).dataWrites ∧
      ∀ j ∈ (copyData board tempBuffer baseIndex numBytes).dataWrites,
        j ≤ baseIndex + numBytes + 2) ∧
    (processData board tempBuffer baseIndex numBytes).tempReads = List.range' 0 (numBytes + 2) ∧
    (copyData board tempBuffer baseIndex numBytes).tempReads = List.range' 0 (numBytes + 2) ∧
    (processData hello_data hello_data 0 7).dataWrites = [0, 1, 2, 3, 4, 5, 6, 7, 8, 9] ∧
    (processData hello_data hello_data 56 6).dataWrites = [56, 57, 58, 59, 60, 61, 62, 63, 64] := by
  have hc : copyData board tempBuffer baseIndex numBytes
      = processData board tempBuffer baseIndex numBytes := rfl
  rw [hc, processData_tempReads, processData_dataWrites]
  exact ⟨range_copy_in_bounds baseIndex numBytes, range_copy_in_bounds baseIndex numBytes,
    range_copy_highest_write baseIndex numBytes, range_copy_highest_write baseIndex numBytes,
    rfl, rfl, by decide, by decide⟩

end Comparison

/-! ## The payload dispatcher -/

namespace payloadSync

theorem shift_and_byte (lo hi : Byte) : (hi.val <<< 8) &&& lo.val = 0 := by
  apply Nat.eq_of_testBit_eq
  intro i
  rw [Nat.testBit_and, Nat.testBit_shiftLeft, Nat.zero_testBit]
  by_cases h : 8 ≤ i
  · have : lo.val < 2 ^ i := lt_of_lt_of_le lo.isLt (Nat.pow_le_pow_right (Nat.succ_pos 1) h)
    rw [Nat.testBit_lt_two_pow this, Bool.and_false]
  · simp [h]

theorem handleError_receiveReply (cfg : Config) (command : Message) (s : State) :
    handleError cfg (receiveReply s).2 command (receiveReply s).1
      = (cfg.isError (s.incoming s.consumed), replied cfg command s) := by
  by_cases h : cfg.isError (s.incoming s.consumed) = true
  · simp [handleError, receiveReply, receiveData, State.call, replied, h]
  · simp [handleError, receiveReply, receiveData, State.call, replied, h]

theorem case_START_DOWNLOAD_eq (cfg : Config) (command : Message) (s : State) :
    case_START_DOWNLOAD cfg command s
      = if cfg.isError (s.incoming s.consumed) = true then replied cfg command s
        else { replied cfg command s with
          consumed := s.consumed + 1 + 32
          calls := (replied cfg command s).calls ++ [Call.receiveData Dest.shasum 32]
          shasum := fill s.shasum
            ((List.range 32).map (fun i => s.incoming (s.consumed + 1 + i))) } := by
  unfold case_START_DOWNLOAD
  simp only [handleError_receiveReply]
  by_cases h : cfg.isError (s.incoming s.consumed) = true
  · simp [h]
  · simp [h, receiveData, replied]

theorem case_START_UPLOAD_eq (cfg : Config) (command : Message) (s : State) :
    case_START_UPLOAD cfg command s
      = if cfg.isError (s.incoming s.consumed) = true then replied cfg command s
        else { replied cfg command s with upload_index := 0 } := by
  unfold case_START_UPLOAD
  simp only [handleError_receiveReply]

theorem case_SEND_PACKET_eq (cfg : Config) (command : Message) (datalen : Nat) (s : State) :
    case_SEND_PACKET cfg command datalen s
      = if cfg.isError (s.incoming s.consumed) = true then replied cfg command s
        else { replied cfg command s with
          upload_index := (s.upload_index + datalen) % (cfg.UPLOAD_INDEX_MAX + 1) } := by
  unfold case_SEND_PACKET
  simp only [handleError_receiveReply]
  rfl

theorem case_reply_and_log_eq (cfg : Config) (command : Message) (s : State) :
    case_reply_and_log cfg command s = replied cfg command s := by
  unfold case_reply_and_log
  simp only [handleError_receiveReply]

theorem case_REQUEST_PACKET_eq (cfg : Config) (command : Message) (s : State) :
    case_REQUEST_PACKET cfg command s
      = if cfg.isError (s.incoming s.consumed) = true then replied cfg command s
        else { replied cfg command s with
          consumed := s.consumed + 1 + 2 + 0
          packetLenArr := fill s.packetLenArr
            [s.incoming (s.consumed + 1), s.incoming (s.consumed + 1 + 1)]
          packetLen := 0
          calls := (replied cfg command s).calls ++
            [Call.receiveData Dest.packetLenArr 2, Call.malloc 0, Call.receiveData Dest.data 0,
              Call.saveData [] 0, Call.free] } := by
  unfold case_REQUEST_PACKET
  simp only [handleError_receiveReply]
  by_cases h : cfg.isError (s.incoming s.consumed) = true
  · simp [h]
  · have hz : ∀ a : Nat → Byte, ((a 1).val <<< 8) &&& (a 0).val = 0 :=
      fun a => shift_and_byte (a 0) (a 1)
    simp only [h, hz]
    simp [receiveData, replied, State.call, List.range_succ]

theorem handle_reply_frame (cfg : Config) (command : Message) (comcode : Code) (datalen : Nat)
    (s : State) :
    (handle_reply cfg command comcode datalen s).commandQue = s.commandQue ∧
    ∃ handling, (handle_reply cfg command comcode datalen s).calls = s.calls ++ handling ∧
      ∀ c ∈ handling, c.inReplyHandling = true := by
  by_cases h : cfg.isError (s.incoming s.consumed) = true
  · cases comcode <;>
      simp only [handle_reply, case_START_DOWNLOAD_eq, case_START_UPLOAD_eq,
        case_REQUEST_PACKET_eq, case_SEND_PACKET_eq, case_reply_and_log_eq,
        case_FINALIZE_UPLOAD, receiveReply, receiveData, if_pos h, replied] <;>
      refine ⟨by first | rfl | trivial, ?_⟩ <;>
      first
        | (refine ⟨_, rfl, ?_⟩
           simp [Call.inReplyHandling])
        | (refine ⟨[], ?_, ?_⟩
           · simp
           · simp)
  · cases comcode <;>
      simp only [handle_reply, case_START_DOWNLOAD_eq, case_START_UPLOAD_eq,
        case_REQUEST_PACKET_eq, case_SEND_PACKET_eq, case_reply_and_log_eq,
        case_FINALIZE_UPLOAD, receiveReply, receiveData, if_neg h, replied,
        List.append_assoc] <;>
      refine ⟨by first | rfl | trivial, ?_⟩ <;>
      first
        | (refine ⟨_, rfl, ?_⟩
           simp [Call.inReplyHandling])
        | (refine ⟨[], ?_, ?_⟩
           · simp
           · simp)

theorem send_command_eq (command : Message) (s : State) :
    send_command command s = { s with calls := s.calls ++ sendCalls command } := by
  unfold send_command sendCalls State.call
  by_cases h : 0 < command.payloadLen.val
  · simp [h]
  · simp [h]

theorem forward_frame (cfg : Config) (command : Message) (s : State) :
    (forward cfg command s).commandQue = s.commandQue.tail ∧
    ∃ handling, (forward cfg command s).calls
        = s.calls ++ sendCalls command ++ handling ++
          [Call.dequeue s.commandQue.length, Call.HAL_Delay cfg.COMMAND_DELAY] ∧
      ∀ c ∈ handling, c.inReplyHandling = true := by
  obtain ⟨hq, handling, hc, hall⟩ := handle_reply_frame cfg command command.code
    command.payloadLen.val (send_command command s)
  have hq2 : (send_command command s).commandQue = s.commandQue := by rw [send_command_eq]
  have hc2 : (send_command command s).calls = s.calls ++ sendCalls command := by
    rw [send_command_eq]
  refine ⟨?_, handling, ?_, hall⟩
  · show (handle_reply cfg command command.code command.payloadLen.val
      (send_command command s)).commandQue.tail = _
    rw [hq, hq2]
  · show (handle_reply cfg command command.code command.payloadLen.val
      (send_command command s)).calls ++ [Call.dequeue (handle_reply cfg command command.code
        command.payloadLen.val (send_command command s)).commandQue.length]
      ++ [Call.HAL_Delay cfg.COMMAND_DELAY] = _
    rw [hc, hq, hq2, hc2]
    simp

theorem loop_body_cons (cfg : Config) (s : State) (command : Message) (rest : List Message)
    (hq : s.commandQue = command :: rest) :
    loop_body cfg s = Step.again (forward cfg command
      ((s.call Call.heartbeatListen).call (Call.peekQueue (rest.length + 1)))) := by
  unfold loop_body
  simp [State.call, hq, numMessages, peekQueue]

theorem loop_body_nil (cfg : Config) (s : State) (hq : s.commandQue = []) :
    loop_body cfg s = Step.exit ((s.call Call.heartbeatListen).call (Call.HAL_Delay 1000)) := by
  unfold loop_body
  simp [State.call, hq, numMessages]

theorem headersSent_append (a b : List Call) :
    headersSent (a ++ b) = headersSent a ++ headersSent b := by
  simp [headersSent, List.filterMap_append]

theorem headersSent_handling (l : List Call) (h : ∀ c ∈ l, c.inReplyHandling = true) :
    headersSent l = [] := by
  induction l with
  | nil => rfl
  | cons c l ih =>
    have hc := h c (List.mem_cons_self c l)
    have hl := ih (fun d hd => h d (List.mem_cons_of_mem c hd))
    cases c <;> simp_all [headersSent, Call.inReplyHandling]

theorem dequeues_handling (l : List Call) (h : ∀ c ∈ l, c.inReplyHandling = true) :
    l.filter Call.isDequeue = [] := by
  induction l with
  | nil => rfl
  | cons c l ih =>
    have hc := h c (List.mem_cons_self c l)
    have hl := ih (fun d hd => h d (List.mem_cons_of_mem c hd))
    cases c <;> simp_all [Call.isDequeue, Call.inReplyHandling]

theorem headersSent_sendCalls (command : Message) : headersSent (sendCalls command) = [command] := by
  unfold sendCalls
  by_cases h : 0 < command.payloadLen.val <;> simp [h, headersSent]

theorem dequeues_sendCalls (command : Message) :
    (sendCalls command).filter Call.isDequeue = [] := by
  unfold sendCalls
  by_cases h : 0 < command.payloadLen.val <;> simp [h, Call.isDequeue]

theorem round_spec (cfg : Config) (s : State) (command : Message) (rest : List Message)
    (hq : s.commandQue = command :: rest) :
    ∃ s1, loop_body cfg s = Step.again s1 ∧ s1.commandQue = rest ∧
      (∃ handling, s1.calls = s.calls ++
          [Call.heartbeatListen, Call.peekQueue (rest.length + 1)] ++ sendCalls command ++
          handling ++ [Call.dequeue (rest.length + 1), Call.HAL_Delay cfg.COMMAND_DELAY] ∧
        ∀ c ∈ handling, c.inReplyHandling = true) ∧
      headersSent s1.calls = headersSent s.calls ++ [command] ∧
      (s1.calls.filter Call.isDequeue).length = (s.calls.filter Call.isDequeue).length + 1 := by
  obtain ⟨h1, handling, h2, h3⟩ := forward_frame cfg command
    ((s.call Call.heartbeatListen).call (Call.peekQueue (rest.length + 1)))
  have hq2 : ((s.call Call.heartbeatListen).call (Call.peekQueue (rest.length + 1))).commandQue
      = command :: rest := hq
  have hc2 : ((s.call Call.heartbeatListen).call (Call.peekQueue (rest.length + 1))).calls
      = s.calls ++ [Call.heartbeatListen, Call.peekQueue (rest.length + 1)] := by
    simp [State.call]
  rw [hq2] at h1 h2
  rw [hc2] at h2
  have h2b : (forward cfg command
      ((s.call Call.heartbeatListen).call (Call.peekQueue (rest.length + 1)))).calls
      = s.calls ++ [Call.heartbeatListen, Call.peekQueue (rest.length + 1)] ++ sendCalls command ++
        handling ++ [Call.dequeue (rest.length + 1), Call.HAL_Delay cfg.COMMAND_DELAY] := by
    rw [h2]; rfl
  refine ⟨_, loop_body_cons cfg s command rest hq, h1, ⟨handling, h2b, h3⟩, ?_, ?_⟩
  · rw [h2b]
    simp only [headersSent_append, headersSent_sendCalls, headersSent_handling handling h3]
    simp [headersSent]
  · rw [h2b]
    simp only [List.filter_append, dequeues_sendCalls, dequeues_handling handling h3]
    simp [Call.isDequeue]

theorem dispatch_spec (cfg : Config) (q : List Message) :
    ∀ (s : State) (k : Nat), s.commandQue = q →
      ∃ s1, dispatch cfg (k + q.length + 1) s = some s1 ∧ s1.commandQue = [] ∧
        headersSent s1.calls = headersSent s.calls ++ q ∧
        (s1.calls.filter Call.isDequeue).length
          = (s.calls.filter Call.isDequeue).length + q.length := by
  induction q with
  | nil =>
    intro s k hq
    refine ⟨(s.call Call.heartbeatListen).call (Call.HAL_Delay 1000), ?_, hq, ?_, ?_⟩
    · show (match loop_body cfg s with
        | Step.exit s1 => some s1
        | Step.again s1 => dispatch cfg (k + 0) s1) = _
      rw [loop_body_nil cfg s hq]
    · simp [State.call, headersSent_append, headersSent]
    · simp [State.call, Call.isDequeue]
  | cons command rest ih =>
    intro s k hq
    obtain ⟨s1, hstep, hq1, -, hh, hd⟩ := round_spec cfg s command rest hq
    obtain ⟨s2, hrun, hq2, hh2, hd2⟩ := ih s1 k hq1
    refine ⟨s2, ?_, hq2, ?_, ?_⟩
    · show (match loop_body cfg s with
        | Step.exit s1 => some s1
        | Step.again s1 => dispatch cfg (k + rest.length + 1) s1) = _
      rw [hstep]
      exact hrun
    · rw [hh2, hh]; simp
    · rw [hd2, hd]; simp only [List.length_cons]; omega

/-- C12. `case REQUEST_PACKET`, reply without error: whatever the two bytes of the length
field are, `packetLen = (packetLenArr[1] << 8) & packetLenArr[0]` is 0, so the dispatcher
allocates 0 bytes, asks the link for 0 payload bytes and passes 0 to `saveData`; the value
`lo + 256 * hi` is never formed. -/
theorem c12_request_packet_length_is_zero (cfg : Config) (command : Message) (datalen : Nat)
    (s : State) (hok : cfg.isError (s.incoming s.consumed) = false) :
    (handle_reply cfg command Code.REQUEST_PACKET datalen s).packetLenArr 0
      = s.incoming (s.consumed + 1) ∧
    (handle_reply cfg command Code.REQUEST_PACKET datalen s).packetLenArr 1
      = s.incoming (s.consumed + 2) ∧
    (handle_reply cfg command Code.REQUEST_PACKET datalen s).packetLen = 0 ∧
    (handle_reply cfg command Code.REQUEST_PACKET datalen s).calls
      = s.calls ++
        [Call.receiveData Dest.reply 1, Call.handleError command (s.incoming s.consumed),
          Call.receiveData Dest.packetLenArr 2, Call.malloc 0, Call.receiveData Dest.data 0,
          Call.saveData [] 0, Call.free] := by
  have h : ¬ cfg.isError (s.incoming s.consumed) = true := by rw [hok]; decide
  simp only [handle_reply, case_REQUEST_PACKET_eq, if_neg h]
  refine ⟨?_, ?_, ?_, ?_⟩
  · rfl
  · rfl
  · trivial
  · simp [replied]

/-- C12 at the length field `34 12` after a reply byte 0 (no error): the field asks for
`0x1234` bytes, `packetLen` is 0 and the data receive is for 0 bytes. -/
theorem c12_length_field_34_12 :
    cfg0.isError ((State.init [request_packet] [0x00, 0x34, 0x12]).incoming
      (State.init [request_packet] [0x00, 0x34, 0x12]).consumed) = false ∧
    (0x34 + 256 * 0x12 = 0x1234) ∧
    ((handle_reply cfg0 request_packet Code.REQUEST_PACKET 0
        (State.init [request_packet] [0x00, 0x34, 0x12])).packetLenArr 0 = 0x34 ∧
    (handle_reply cfg0 request_packet Code.REQUEST_PACKET 0
        (State.init [request_packet] [0x00, 0x34, 0x12])).packetLenArr 1 = 0x12 ∧
    (handle_reply cfg0 request_packet Code.REQUEST_PACKET 0
        (State.init [request_packet] [0x00, 0x34, 0x12])).packetLen = 0 ∧
    (handle_reply cfg0 request_packet Code.REQUEST_PACKET 0
        (State.init [request_packet] [0x00, 0x34, 0x12])).calls
      = [] ++
        [Call.receiveData Dest.reply 1, Call.handleError request_packet 0x00,
          Call.receiveData Dest.packetLenArr 2, Call.malloc 0, Call.receiveData Dest.data 0,
          Call.saveData [] 0, Call.free]) :=
  ⟨by decide, by decide,
    c12_request_packet_length_is_zero cfg0 request_packet 0
      (State.init [request_packet] [0x00, 0x34, 0x12]) (by decide)⟩

/-- C13. A round whose head command is a `REQUEST_PACKET` and whose reply byte is reported
as an error by `handleError`: after the header (and payload, if any) the dispatcher makes
the 1-byte reply read and one `handleError` call, then `dequeue` and the delay: no read of
the length field or of data, one byte consumed from the link, one entry added to the error
log, and the command gone from the queue. -/
theorem c13_request_packet_short_circuit (cfg : Config) (s : State) (command : Message)
    (rest : List Message) (hq : s.commandQue = command :: rest)
    (hcode : command.code = Code.REQUEST_PACKET)
    (hfail : cfg.isError (s.incoming s.consumed) = true) :
    (loop_body cfg s).isExit = false ∧
    (loop_body cfg s).state.calls
      = s.calls ++ [Call.heartbeatListen, Call.peekQueue (rest.length + 1)] ++
        sendCalls command ++
        [Call.receiveData Dest.reply 1, Call.handleError command (s.incoming s.consumed),
          Call.dequeue (rest.length + 1), Call.HAL_Delay cfg.COMMAND_DELAY] ∧
    (loop_body cfg s).state.consumed = s.consumed + 1 ∧
    (loop_body cfg s).state.errors
      = s.errors ++ [{ command_code := Code.REQUEST_PACKET,
                       error_byte := s.incoming s.consumed }] ∧
    (loop_body cfg s).state.commandQue = rest := by
  rw [loop_body_cons cfg s command rest hq]
  simp only [Step.isExit, Step.state, forward, send_command_eq, hcode, handle_reply,
    case_REQUEST_PACKET_eq, State.call, if_pos hfail, replied]
  simp [hq, hcode, numMessages, dequeue]

/-- C13 at a queue holding one `REQUEST_PACKET` whose reply byte is `0x07`, an error. -/
theorem c13_request_packet_error_07 :
    (State.init [request_packet] [0x07]).commandQue = request_packet :: [] ∧
    request_packet.code = Code.REQUEST_PACKET ∧
    cfg0.isError ((State.init [request_packet] [0x07]).incoming
      (State.init [request_packet] [0x07]).consumed) = true ∧
    ((loop_body cfg0 (State.init [request_packet] [0x07])).isExit = false ∧
    (loop_body cfg0 (State.init [request_packet] [0x07])).state.calls
      = [] ++ [Call.heartbeatListen, Call.peekQueue (0 + 1)] ++
        sendCalls request_packet ++
        [Call.receiveData Dest.reply 1, Call.handleError request_packet 0x07,
          Call.dequeue (0 + 1), Call.HAL_Delay 100] ∧
    (loop_body cfg0 (State.init [request_packet] [0x07])).state.consumed = 0 + 1 ∧
    (loop_body cfg0 (State.init [request_packet] [0x07])).state.errors
      = [] ++ [{ command_code := Code.REQUEST_PACKET, error_byte := 0x07 }] ∧
    (loop_body cfg0 (State.init [request_packet] [0x07])).state.commandQue = []) :=
  ⟨rfl, rfl, by decide,
    c13_request_packet_short_circuit cfg0 (State.init [request_packet] [0x07]) request_packet []
      rfl rfl (by decide)⟩

/-- C14. `case START_DOWNLOAD`: the dispatcher reads one reply byte and calls
`handleError`; the 32-byte read into `shasum` follows exactly when no error is reported,
and then `shasum[0 .. 32)` holds the next 32 bytes of the link; on an error no further
read is made and `shasum` is as before. -/
theorem c14_start_download_checksum (cfg : Config) (command : Message) (datalen : Nat)
    (s : State) :
    (handle_reply cfg command Code.START_DOWNLOAD datalen s).calls
      = s.calls ++
        [Call.receiveData Dest.reply 1, Call.handleError command (s.incoming s.consumed)] ++
        (if cfg.isError (s.incoming s.consumed) = true then []
         else [Call.receiveData Dest.shasum 32]) ∧
    (handle_reply cfg command Code.START_DOWNLOAD datalen s).shasum
      = (if cfg.isError (s.incoming s.consumed) = true then s.shasum
         else fun i => if i < 32 then s.incoming (s.consumed + 1 + i) else s.shasum i) ∧
    (handle_reply cfg command Code.START_DOWNLOAD datalen s).consumed
      = s.consumed + 1 + (if cfg.isError (s.incoming s.consumed) = true then 0 else 32) := by
  simp only [handle_reply, case_START_DOWNLOAD_eq]
  by_cases h : cfg.isError (s.incoming s.consumed) = true
  · rw [if_pos h, if_pos h, if_pos h, if_pos h]
    refine ⟨by simp [replied], rfl, rfl⟩
  · rw [if_neg h, if_neg h, if_neg h, if_neg h]
    refine ⟨by simp [replied], ?_, rfl⟩
    funext i
    by_cases hi : i < 32
    · simp [fill, hi, List.getD_eq_getElem]
    · simp [fill, hi]

theorem forward_SEND_PACKET_upload_index (cfg : Config) (L : Half) (payload : List Byte)
    (s : State) :
    (forward cfg { code := Code.SEND_PACKET, payloadLen := L, payload := payload } s).upload_index
      = (if cfg.isError (s.incoming s.consumed) = true then s.upload_index
         else (s.upload_index + L.val) % (cfg.UPLOAD_INDEX_MAX + 1)) := by
  simp only [forward, send_command_eq, handle_reply, case_SEND_PACKET_eq, State.call]
  by_cases h : cfg.isError (s.incoming s.consumed) = true
  · simp [h, replied]
  · simp [h, replied]

/-- C15, as amended. A round on a `SEND_PACKET` command with payload length `L`: afterwards
`upload_index` is its previous value when `handleError` reports an error; when it reports
none, `upload_index` is its previous value plus `L`, provided that sum does not exceed the
largest value of the integer type of `upload_index`. -/
theorem c15_send_packet_advances_cursor_in_range (cfg : Config) (L : Half)
    (payload : List Byte) (s : State) :
    (cfg.isError (s.incoming s.consumed) = true →
      (forward cfg { code := Code.SEND_PACKET, payloadLen := L, payload := payload }
        s).upload_index = s.upload_index) ∧
    (cfg.isError (s.incoming s.consumed) = false →
      s.upload_index + L.val ≤ cfg.UPLOAD_INDEX_MAX →
      (forward cfg { code := Code.SEND_PACKET, payloadLen := L, payload := payload }
        s).upload_index = s.upload_index + L.val) := by
  constructor
  · intro herr
    rw [forward_SEND_PACKET_upload_index, if_pos herr]
  · intro hok hfit
    rw [forward_SEND_PACKET_upload_index, if_neg (by rw [hok]; decide)]
    exact Nat.mod_eq_of_lt (by omega)

/-- C15, as amended, at a cursor of 10 and a `SEND_PACKET` of 3 bytes: 13 after a reply
without error, 10 after the error reply `0x07`. -/
theorem c15_cursor_10_plus_3 :
    cfg0.isError (({ State.init [send_packet_3] [0x00] with upload_index := 10 } : State).incoming
      ({ State.init [send_packet_3] [0x00] with upload_index := 10 } : State).consumed) = false ∧
    cfg0.isError (({ State.init [send_packet_3] [0x07] with upload_index := 10 } : State).incoming
      ({ State.init [send_packet_3] [0x07] with upload_index := 10 } : State).consumed) = true ∧
    (10 : Nat) + (3 : Half).val ≤ cfg0.UPLOAD_INDEX_MAX ∧
    (forward cfg0 send_packet_3
      { State.init [send_packet_3] [0x00] with upload_index := 10 }).upload_index = 13 ∧
    (forward cfg0 send_packet_3
      { State.init [send_packet_3] [0x07] with upload_index := 10 }).upload_index = 10 ∧
    ((forward cfg0 { code := Code.SEND_PACKET, payloadLen := 3, payload := [0xAA, 0xBB, 0xCC] }
      { State.init [send_packet_3] [0x00] with upload_index := 10 }).upload_index
      = 10 + (3 : Half).val) ∧
    ((forward cfg0 { code := Code.SEND_PACKET, payloadLen := 3, payload := [0xAA, 0xBB, 0xCC] }
      { State.init [send_packet_3] [0x07] with upload_index := 10 }).upload_index = 10) :=
  ⟨by decide, by decide, by decide, by decide, by decide,
    (c15_send_packet_advances_cursor_in_range cfg0 3 [0xAA, 0xBB, 0xCC]
      { State.init [send_packet_3] [0x00] with upload_index := 10 }).2 (by decide) (by decide),
    (c15_send_packet_advances_cursor_in_range cfg0 3 [0xAA, 0xBB, 0xCC]
      { State.init [send_packet_3] [0x07] with upload_index := 10 }).1 (by decide)⟩

theorem forward_SEND_PACKET_at_maximum (cfg : Config) (L : Half) (payload : List Byte)
    (s : State) (hok : cfg.isError (s.incoming s.consumed) = false) (hL : 0 < L.val)
    (hmax : s.upload_index = cfg.UPLOAD_INDEX_MAX) :
    (forward cfg { code := Code.SEND_PACKET, payloadLen := L, payload := payload } s).upload_index
      ≤ cfg.UPLOAD_INDEX_MAX ∧
    (forward cfg { code := Code.SEND_PACKET, payloadLen := L, payload := payload } s).upload_index
      ≠ s.upload_index + L.val := by
  rw [forward_SEND_PACKET_upload_index, if_neg (by rw [hok]; decide)]
  have hlt : (s.upload_index + L.val) % (cfg.UPLOAD_INDEX_MAX + 1) < cfg.UPLOAD_INDEX_MAX + 1 :=
    Nat.mod_lt _ (Nat.succ_pos cfg.UPLOAD_INDEX_MAX)
  constructor
  · omega
  · omega

/-- C15 as stated fails at the top of the cursor's range: with a 32-bit `upload_index` at
`0xFFFFFFFF`, a `SEND_PACKET` of 3 bytes and a reply without error, the value stored in
`upload_index` is at most `0xFFFFFFFF` and so is not the previous value plus 3.  The same
holds whatever the width of `upload_index`: at its largest value, a `SEND_PACKET` with a
non-empty payload and a reply without error never leaves previous value plus `L`. -/
theorem c15_cursor_cannot_advance_at_maximum :
    cfg0.isError (cursor_at_max.incoming cursor_at_max.consumed) = false ∧
    cursor_at_max.upload_index = 0xFFFFFFFF ∧
    (forward cfg0 send_packet_3 cursor_at_max).upload_index ≤ 0xFFFFFFFF ∧
    ¬ ((forward cfg0 send_packet_3 cursor_at_max).upload_index
      = if cfg0.isError (cursor_at_max.incoming cursor_at_max.consumed) = true
        then cursor_at_max.upload_index
        else cursor_at_max.upload_index + send_packet_3.payloadLen.val) ∧
    (∀ (cfg : Config) (L : Half) (payload : List Byte) (s : State),
      cfg.isError (s.incoming s.consumed) = false → 0 < L.val →
      s.upload_index = cfg.UPLOAD_INDEX_MAX →
      (forward cfg { code := Code.SEND_PACKET, payloadLen := L, payload := payload }
        s).upload_index ≠ s.upload_index + L.val) :=
  ⟨by decide, by decide, by decide, by decide,
    fun cfg L payload s hok hL hmax =>
      (forward_SEND_PACKET_at_maximum cfg L payload s hok hL hmax).2⟩

/-- C16. A round on a `START_UPLOAD` command leaves `upload_index` at 0 when `handleError`
reports no error and as it was when it reports one; and a round on any command either
leaves `upload_index` as it was or the command is a `START_UPLOAD` or a `SEND_PACKET`. -/
theorem c16_start_upload_resets_cursor (cfg : Config) (L : Half) (payload : List Byte)
    (command : Message) (s : State) :
    (forward cfg { code := Code.START_UPLOAD, payloadLen := L, payload := payload } s).upload_index
      = (if cfg.isError (s.incoming s.consumed) = true then s.upload_index else 0) ∧
    ((forward cfg command s).upload_index = s.upload_index ∨
      command.code = Code.START_UPLOAD ∨ command.code = Code.SEND_PACKET) := by
  constructor
  · simp only [forward, send_command_eq, handle_reply, case_START_UPLOAD_eq, State.call]
    by_cases h : cfg.isError (s.incoming s.consumed) = true
    · simp [h, replied]
    · simp [h, replied]
  · rcases command with ⟨code, len, pl⟩
    cases code
    case START_UPLOAD => exact Or.inr (Or.inl rfl)
    case SEND_PACKET => exact Or.inr (Or.inr rfl)
    all_goals
      left
      simp only [forward, send_command_eq, handle_reply, case_START_DOWNLOAD_eq,
        case_REQUEST_PACKET_eq, case_reply_and_log_eq, case_FINALIZE_UPLOAD, receiveReply,
        receiveData, State.call]
      try split
      all_goals simp [replied]

/-- C17. A round that starts with a non-empty queue, whatever the code of the head command
and whatever the link delivers: it does not leave the loop; it calls `peekQueue` and, as
its last call before the delay, `dequeue`, both with `numMessages > 0`; every call between
the sends and the `dequeue` belongs to the reply handling, which holds no `dequeue`; and
the queue afterwards is the old one without its head.  A round that starts with an empty
queue calls neither. -/
theorem c17_head_dequeued_once_after_handling (cfg : Config) (s : State) (command : Message)
    (rest : List Message) :
    (loop_body cfg { s with commandQue := command :: rest }).isExit = false ∧
    (loop_body cfg { s with commandQue := command :: rest }).state.commandQue = rest ∧
    (∃ handling,
      (loop_body cfg { s with commandQue := command :: rest }).state.calls
        = s.calls ++ [Call.heartbeatListen, Call.peekQueue (rest.length + 1)] ++
          sendCalls command ++ handling ++
          [Call.dequeue (rest.length + 1), Call.HAL_Delay cfg.COMMAND_DELAY] ∧
      (∀ c ∈ handling, c.inReplyHandling = true) ∧
      handling.filter Call.isDequeue = []) ∧
    ((loop_body cfg { s with commandQue := command :: rest }).state.calls.filter
      Call.isDequeue).length = (s.calls.filter Call.isDequeue).length + 1 ∧
    (loop_body cfg { s with commandQue := [] }).isExit = true ∧
    (loop_body cfg { s with commandQue := [] }).state.calls
      = s.calls ++ [Call.heartbeatListen, Call.HAL_Delay 1000] := by
  obtain ⟨s1, hstep, hq1, ⟨handling, hc, hall⟩, -, hd⟩ :=
    round_spec cfg { s with commandQue := command :: rest } command rest rfl
  rw [hstep, loop_body_nil cfg { s with commandQue := [] } rfl]
  refine ⟨rfl, hq1, ⟨handling, hc, hall, dequeues_handling handling hall⟩, hd, rfl, ?_⟩
  simp [Step.state, State.call]

/-- C18. Started on a queue of `n` commands, the loop leaves through its `break` after `n`
rounds, given at least `n + 1` rounds of fuel: the queue is then empty, the headers sent
are the queued commands in queue order, each once, and `dequeue` was called `n` times.
Started on an empty queue it leaves at once, having called only `heartbeatListen` and
`HAL_Delay(1000)`. -/
theorem c18_dispatch_drains_queue_in_order (cfg : Config) (s : State) (k : Nat) :
    (∃ s1, dispatch cfg (k + s.commandQue.length + 1) s = some s1 ∧
      s1.commandQue = [] ∧
      headersSent s1.calls = headersSent s.calls ++ s.commandQue ∧
      (s1.calls.filter Call.isDequeue).length
        = (s.calls.filter Call.isDequeue).length + s.commandQue.length) ∧
    dispatch cfg (k + 1) { s with commandQue := [] }
      = some { s with commandQue := []
                      calls := s.calls ++ [Call.heartbeatListen, Call.HAL_Delay 1000] } ∧
    (dispatch cfg0 3 (State.init [take_photo, send_packet_3] [0x00, 0x00])).map
        (fun s1 => (s1.commandQue, headersSent s1.calls, s1.upload_index))
      = some ([], [take_photo, send_packet_3], 3) ∧
    (dispatch cfg0 2 (State.init [take_photo, send_packet_3] [0x00, 0x00])).isSome = false := by
  refine ⟨dispatch_spec cfg s.commandQue s k rfl, ?_, by decide, by decide⟩
  show (match loop_body cfg { s with commandQue := [] } with
    | Step.exit s1 => some s1
    | Step.again s1 => dispatch cfg k s1) = _
  rw [loop_body_nil cfg { s with commandQue := [] } rfl]
  simp [State.call]

end payloadSync

end CDH
